import Mathlib

/-!
Verification of `onnxslim/utils.py` (xenova/OnnxSlim): a shallow embedding of
the utility functions of the module — the byte formatter, the input-data
synthesizer, the model summarizer, the result comparator, the persistence
helper and the inference runner — together with theorems settling the
specification claims about them.

Machine integers of the source are modelled as `Nat`/`Int` (no overflow is
relevant here); the Python floats that occur are exact binary fractions
(byte counts divided by powers of 1024, engine outputs), modelled as exact
integer numerator/denominator pairs, with `Rat` used in the statements that
relate them to the tolerances and ratios of the specification; Python
exceptions are `Except`, and the filesystem is an explicit list of paths.
-/

namespace OnnxSlim

instance {ε α : Type} [DecidableEq ε] [DecidableEq α] : DecidableEq (Except ε α) := fun x y =>
  match x, y with
  | .error a, .error b =>
    if h : a = b then .isTrue (by rw [h])
    else .isFalse (by intro hc; injection hc with h2; exact h h2)
  | .error _, .ok _ => .isFalse (by intro hc; exact Except.noConfusion hc)
  | .ok _, .error _ => .isFalse (by intro hc; exact Except.noConfusion hc)
  | .ok a, .ok b =>
    if h : a = b then .isTrue (by rw [h])
    else .isFalse (by intro hc; injection hc with h2; exact h h2)

/-! ### Protobuf data model

A dimension of a tensor shape: `dim_param` (a symbolic name), `dim_value`
(a concrete integer), or neither field set (unknown).  Mirrors the
`TensorShapeProto.Dimension` oneof read by the source via `HasField`. -/

inductive Dim where
  | param (s : String)
  | value (v : Int)
  | unknown
deriving DecidableEq, Repr

/-- The type of a tensor: element type (the ONNX enum value) and an optional
shape (`HasField("shape")` false is modelled as `none`; a present shape with
zero dimensions is `some []`). -/
structure TensorTypeProto where
  elem_type : Nat
  shape : Option (List Dim)
deriving DecidableEq, Repr

/-- A named value-info entry (`onnx.ValueInfoProto`): name plus tensor type. -/
structure ValueInfoProto where
  name : String
  ttype : TensorTypeProto
deriving DecidableEq, Repr

/-- An opset import entry: domain and version. -/
structure OpsetImport where
  domain : String
  version : Int
deriving DecidableEq, Repr

mutual
/-- An ONNX graph as read by the source: its nodes and its `input`,
`output` and `value_info` tables. -/
inductive GraphProto where
  | mk (node : List NodeProto) (input : List ValueInfoProto)
       (output : List ValueInfoProto) (value_info : List ValueInfoProto) : GraphProto

/-- An ONNX node as read by the source: `name`, `op_type`, output tensor
names, and attributes. -/
inductive NodeProto where
  | mk (name : String) (op_type : String) (output : List String)
       (attrs : List AttributeProto) : NodeProto

/-- An ONNX node attribute as read by the source: only its `type` enum value
and its `g` subgraph field are ever consulted (`g` defaults to an empty graph
in protobuf; the source reads it only when `type` is `GRAPH` = 5). -/
inductive AttributeProto where
  | mk (type : Nat) (g : GraphProto) : AttributeProto
end

def GraphProto.node : GraphProto → List NodeProto
  | .mk n _ _ _ => n

def GraphProto.input : GraphProto → List ValueInfoProto
  | .mk _ i _ _ => i

def GraphProto.output : GraphProto → List ValueInfoProto
  | .mk _ _ o _ => o

def GraphProto.value_info : GraphProto → List ValueInfoProto
  | .mk _ _ _ v => v

def NodeProto.name : NodeProto → String
  | .mk n _ _ _ => n

def NodeProto.op_type : NodeProto → String
  | .mk _ t _ _ => t

def NodeProto.output : NodeProto → List String
  | .mk _ _ o _ => o

def NodeProto.attrs : NodeProto → List AttributeProto
  | .mk _ _ _ a => a

/-- Models a possible exception raised by the structural checker
`onnx.checker.check_model`: `ValueError` (model too large) or any other
exception. -/
inductive CheckExc where
  | valueError
  | otherError (msg : String)
deriving DecidableEq, Repr

/-- An ONNX model as read by the source.  `byteSize` models
`model.ByteSize()`, the serialized byte size.  `opset_import` is wrapped in
`Except` to model that reading malformed opset information may raise (the
source guards the read with `try/except`).  `checkExc` models the outcome of
the external structural checker on this model (`none` = passes). -/
structure ModelProto where
  graph : GraphProto
  byteSize : Nat
  opset_import : Except String (List OpsetImport)
  checkExc : Option CheckExc

/-! ### Python string primitives

`str.split`, `str.endswith`, `str.join` and `int()` are implemented here on
the character list of the string (structural recursion, so that concrete
inputs evaluate inside proofs). -/

/-- Python `s.split(sep)` for a one-character separator, on character
lists: `""` gives `[""]`, adjacent separators give empty fields. -/
def splitChar (sep : Char) : List Char → List (List Char)
  | [] => [[]]
  | c :: rest =>
    match splitChar sep rest with
    | [] => [[c]]
    | w :: ws => if c = sep then [] :: w :: ws else (c :: w) :: ws

/-- Python `s.split(sep)` for a one-character separator. -/
def pySplit (s : String) (sep : Char) : List String :=
  (splitChar sep s.data).map (fun cs => ⟨cs⟩)

/-- Python `sep.join(parts)`. -/
def pyJoin (sep : String) (parts : List String) : String :=
  ⟨List.intercalate sep.data (parts.map String.data)⟩

/-- Python `s.endswith(suffix)`. -/
def strEndsWith (s suffix : String) : Bool :=
  suffix.data.isSuffixOf s.data

/-- Decimal digits accumulated left to right; `none` on a non-digit. -/
def digitsAux (acc : Nat) : List Char → Option Nat
  | [] => some acc
  | c :: rest => if 48 ≤ c.toNat ∧ c.toNat ≤ 57 then digitsAux (acc * 10 + (c.toNat - 48)) rest else none

/-! ### Association-list helpers (Python `dict` / `defaultdict`) -/

/-- `dict` lookup with a default (`d.get(k, dflt)`). -/
def alGet {β : Type} (l : List (String × β)) (k : String) (dflt : β) : β :=
  match l.find? (fun p => p.1 = k) with
  | some p => p.2
  | none => dflt

/-- `dict` lookup returning an option. -/
def alFind {β : Type} (l : List (String × β)) (k : String) : Option β :=
  (l.find? (fun p => p.1 = k)).map (fun p => p.2)

/-- `dict` membership (`k in d`). -/
def alMem {β : Type} (l : List (String × β)) (k : String) : Bool :=
  l.any (fun p => p.1 = k)

/-- `dict` assignment `d[k] = v`: replaces in place when the key exists,
appends otherwise (Python insertion order). -/
def alSet {β : Type} (l : List (String × β)) (k : String) (v : β) : List (String × β) :=
  match l with
  | [] => [(k, v)]
  | (k0, v0) :: rest => if k0 = k then (k, v) :: rest else (k0, v0) :: alSet rest k v

/-- `defaultdict(int)` increment `d[k] += 1`. -/
def alIncr (l : List (String × Nat)) (k : String) : List (String × Nat) :=
  alSet l k (alGet l k 0 + 1)

/-! ### The numpy dtype mapping

Modelled from the external table `onnx.mapping.TENSOR_TYPE_TO_NP_TYPE`
(ONNX element-type enum to numpy dtype): entry 1 is float32, 2 uint8,
3 int8, 4 uint16, 5 int16, 6 int32, 7 int64, 9 bool, 10 float16,
11 float64, 12 uint32, 13 uint64. -/

def tensorTypeToNpType : List (Nat × String) :=
  [(1, "float32"), (2, "uint8"), (3, "int8"), (4, "uint16"), (5, "int16"),
   (6, "int32"), (7, "int64"), (9, "bool"), (10, "float16"),
   (11, "float64"), (12, "uint32"), (13, "uint64")]

/-- `TENSOR_TYPE_TO_NP_TYPE.get(t, "Unknown")` rendered through `str`. -/
def tensorTypeName (t : Nat) : String :=
  match tensorTypeToNpType.find? (fun p => p.1 = t) with
  | some p => p.2
  | none => "Unknown"

/-! ### The summarizer (`summarize_model` and its inner functions) -/

/-- The `(type_str, shape)` pair returned by the inner function
`get_tensor_dtype_shape`: the numpy name of the element type, and the shape
as a list of dimension entries when the `shape` field is present. -/
def get_tensor_dtype_shape (t : TensorTypeProto) : String × Option (List Dim) :=
  (tensorTypeName t.elem_type, t.shape)

/-- Python `repr` of one shape entry as it appears inside the formatted
tuple: ints print bare, `dim_param` strings print quoted, an absent entry
prints `None`. -/
def dimRepr : Dim → String
  | .value v => toString v
  | .param s => "\x27" ++ s ++ "\x27"
  | .unknown => "None"

/-- Python `repr` of a tuple of dimension entries (singleton tuples carry a
trailing comma). -/
def pyTupleRepr : List String → String
  | [] => "()"
  | [x] => "(" ++ x ++ ",)"
  | xs => "(" ++ pyJoin ", " xs ++ ")"

/-- The inner function `get_shape`: maps each tensor name to
`"<dtype>: <tuple of dims>"` when a non-empty shape is present (Python
truthiness: `None` and the empty list both fall to the `else` branch),
else `"<dtype>: None"`. -/
def get_shape (inputs : List ValueInfoProto) : List (String × String) :=
  inputs.foldl
    (fun acc vi =>
      let ts := get_tensor_dtype_shape vi.ttype
      match ts.2 with
      | some (d :: ds) =>
          alSet acc vi.name (ts.1 ++ ": " ++ pyTupleRepr ((d :: ds).map dimRepr))
      | _ => alSet acc vi.name (ts.1 ++ ": None"))
    []

/-- One `op_info` shapes entry: `[type_str, shape]`. -/
abbrev ShapeEntry := String × Option (List Dim)

instance : DecidableEq (List ShapeEntry) := inferInstance

instance : DecidableEq (String × (String × List ShapeEntry)) := inferInstance

/-- The mutable state shared across the recursion of `get_graph_node_info`
(the enclosing-scope variables `op_type_counts` and `op_info`). -/
structure SState where
  counts : List (String × Nat)
  opInfo : List (String × (String × List ShapeEntry))
deriving DecidableEq, Repr

/-- `value_info_dict` lookup: the dict comprehension keeps the last entry
for a duplicated name, so the lookup returns the last match. -/
def viLookup (vis : List ValueInfoProto) (nm : String) : Option ValueInfoProto :=
  vis.foldl (fun acc v => if v.name = nm then some v else acc) none

/-- The body of the `for output in node.output` loop: `shapes` is rebound to
a fresh list on every iteration, so the state after the loop is the entry of
the LAST output only — or the incoming state unchanged when the node has no
outputs (`none` models the variable being still unbound). -/
def outputLoop (vis : List ValueInfoProto) (outputs : List String)
    (shapes : Option (List ShapeEntry)) : Option (List ShapeEntry) :=
  outputs.foldl
    (fun _ out =>
      match viLookup vis out with
      | some vi => some [get_tensor_dtype_shape vi.ttype]
      | none => some [])
    shapes

mutual
/-- The `for node in graph.node` loop of `get_graph_node_info`: per node it
increments the op-type count, runs the output loop, writes
`op_info[node.name] = [node.op_type, shapes]` (raising the Python
`NameError`/`UnboundLocalError` when `shapes` was never assigned in this
call), then recurses into every `GRAPH`-typed attribute before moving on. -/
def nodeLoop (vis : List ValueInfoProto) :
    List NodeProto → Option (List ShapeEntry) → SState → Except String SState
  | [], _, st => .ok st
  | .mk nm opType outputs attrs :: rest, shapes, st =>
    let st1 : SState := { st with counts := alIncr st.counts opType }
    let shapes1 := outputLoop vis outputs shapes
    match shapes1 with
    | none => .error "UnboundLocalError: local variable referenced before assignment"
    | some sh =>
      let st2 : SState := { st1 with opInfo := alSet st1.opInfo nm (opType, sh) }
      match attrLoop vis attrs st2 with
      | .error e => .error e
      | .ok st3 => nodeLoop vis rest shapes1 st3

/-- The `for attr in node.attribute` loop: recurses into `attr.g` exactly
when the attribute type is `GRAPH` (enum value 5). -/
def attrLoop (vis : List ValueInfoProto) :
    List AttributeProto → SState → Except String SState
  | [], st => .ok st
  | .mk ty g :: rest, st =>
    match (if ty = 5 then get_graph_node_info vis g st else .ok st) with
    | .error e => .error e
    | .ok st1 => attrLoop vis rest st1

/-- `get_graph_node_info`: each invocation starts with its own unbound local
`shapes`. -/
def get_graph_node_info (vis : List ValueInfoProto) :
    GraphProto → SState → Except String SState
  | .mk nodes _ _ _, st => nodeLoop vis nodes none st
end

/-- `get_opset`: the version of the first imported opset whose domain is
`""` or `"ai.onnx"`, `None` when there is none, and `None` again when
reading the opset information raises (the `try/except` of the source). -/
def get_opset (m : ModelProto) : Option Int :=
  match m.opset_import with
  | .error _ => none
  | .ok imports =>
    (imports.find? (fun i => i.domain = "" || i.domain = "ai.onnx")).map (fun i => i.version)

/-- The summary record built by `summarize_model`. -/
structure ModelInfo where
  model_size : Nat
  op_set : String
  op_info : List (String × (String × List ShapeEntry))
  op_type_counts : List (String × Nat)
  op_input_info : List (String × String)
  op_output_info : List (String × String)
deriving DecidableEq, Repr

/-- `summarize_model`: byte size, recursive node walk (which may raise, see
`nodeLoop`), opset string (`str(None)` is the string `"None"`), and the
formatted input/output shape tables. -/
def summarize_model (m : ModelProto) : Except String ModelInfo :=
  match get_graph_node_info m.graph.value_info m.graph ⟨[], []⟩ with
  | .error e => .error e
  | .ok st =>
    .ok { model_size := m.byteSize
          op_set := match get_opset m with
                    | some v => toString v
                    | none => "None"
          op_info := st.opInfo
          op_type_counts := st.counts
          op_input_info := get_shape m.graph.input
          op_output_info := get_shape m.graph.output }

/-! ### Specification-side operator count

Written from the words of the spec for the refinement claim C1: the number
of nodes of a given op type in the main graph plus all nested subgraphs
reachable through `GRAPH`-typed attributes. -/

mutual
def specGraphOpCount : GraphProto → String → Nat
  | .mk nodes _ _ _, t => specNodesOpCount nodes t

def specNodesOpCount : List NodeProto → String → Nat
  | [], _ => 0
  | .mk _ opType _ attrs :: rest, t =>
    (if opType = t then 1 else 0) + specAttrsOpCount attrs t + specNodesOpCount rest t

def specAttrsOpCount : List AttributeProto → String → Nat
  | [], _ => 0
  | .mk ty g :: rest, t =>
    (if ty = 5 then specGraphOpCount g t else 0) + specAttrsOpCount rest t
end

/-! ### The byte formatter (`format_bytes`)

The Python loop repeatedly divides a float by 1024; division of a byte
count by powers of 1024 is exact in binary floating point for the sizes at
issue, so the running value is modelled as the exact fraction
`n / D` with `D` the power of 1024 accumulated so far.  Python
`"S:.2f".format` rounds the value to two decimals with ties to even; the
rounding is performed here in integer arithmetic on the exact fraction. -/

/-- The `while size_in_bytes >= 1024 and unit_index < len(units) - 1` loop:
the running value is `n / D`; `remaining` counts the unit steps still
allowed (3 initially).  Returns the final denominator and the number of
divisions performed (the unit index). -/
def fbSteps (n : Nat) (D : Nat) : Nat → Nat × Nat
  | 0 => (D, 0)
  | r + 1 =>
    if 1024 * D ≤ n then
      let p := fbSteps n (1024 * D) r
      (p.1, p.2 + 1)
    else (D, 0)

/-- The value `num / den` rounded to centi-units (two decimals), ties to
even — the integer form of the IEEE rounding applied by Python float
formatting to `"S:.2f"`. -/
def centiOfRat (num den : Nat) : Nat :=
  if 2 * (100 * num % den) < den then 100 * num / den
  else if den < 2 * (100 * num % den) then 100 * num / den + 1
  else if (100 * num / den) % 2 = 0 then 100 * num / den else 100 * num / den + 1

/-- Two-decimal rendering of the exact fraction `num / den`
(`"S:.2f".format`). -/
def twoDecOfRat (num den : Nat) : String :=
  let c := centiOfRat num den
  toString (c / 100) ++ "." ++ (if c % 100 < 10 then "0" ++ toString (c % 100) else toString (c % 100))

def fbUnits : List String := ["B", "KB", "MB", "GB"]

/-- Formatting of a single byte count (one iteration of the
`for size_in_bytes in size` loop). -/
def formatOneSize (n : Nat) : String :=
  let p := fbSteps n 1 3
  twoDecOfRat n p.1 ++ " " ++ fbUnits.getD p.2 "B"

/-- `format_bytes`: an `int` argument is modelled as a one-element list, a
tuple as the list of its entries.  The empty tuple raises `IndexError`
(`formatted_sizes[0]`); with two or more entries only the first two are
rendered, the second in parentheses. -/
def format_bytes (sizes : List Nat) : Except String String :=
  match sizes.map formatOneSize with
  | [] => .error "IndexError: list index out of range"
  | [s] => .ok s
  | s0 :: s1 :: _ => .ok (s0 ++ " (" ++ s1 ++ ")")

/-! ### The input synthesizer (`gen_onnxruntime_input_data`) -/

/-- The numpy dtypes reachable through `onnx_dtype_to_numpy`. -/
inductive NpDtype where
  | float32 | float64 | float16
  | int8 | int16 | int32 | int64
  | uint8 | uint16 | uint32 | uint64
  | boolDt
deriving DecidableEq, Repr

/-- `onnx_dtype_to_numpy`: the external mapping
`onnx.mapping.TENSOR_TYPE_TO_NP_TYPE[onnx_dtype]`; an element type outside
the table raises `KeyError`, which the source does not catch. -/
def onnx_dtype_to_numpy (t : Nat) : Except String NpDtype :=
  match t with
  | 1 => .ok .float32
  | 2 => .ok .uint8
  | 3 => .ok .int8
  | 4 => .ok .uint16
  | 5 => .ok .int16
  | 6 => .ok .int32
  | 7 => .ok .int64
  | 9 => .ok .boolDt
  | 10 => .ok .float16
  | 11 => .ok .float64
  | 12 => .ok .uint32
  | 13 => .ok .uint64
  | _ => .error "KeyError: onnx dtype not in TENSOR_TYPE_TO_NP_TYPE"

/-- One entry of the `input_info` dict.  Phase 1 stores `shape` and `dtype`;
a `.npy` override replaces the whole entry by a `data`-only dict; a shape
override mutates `shape` in place. -/
structure PyInputInfo where
  data : Option String
  shape : Option (List Dim)
  dtype : Option NpDtype
deriving DecidableEq, Repr

/-- The random source drawn from for an input with no literal data:
`np.random.randint(10, size=...)` (uniform integers in `[0, hi)`) or
`np.random.rand(...)` (uniform floats in `[0, 1)`). -/
inductive RandKind where
  | randint (hi : Nat)
  | randfloat
deriving DecidableEq, Repr

/-- The synthesized value for one input: a verbatim array loaded from a
file, or a random array of the given shape and value range cast to the
given dtype. -/
inductive GenData where
  | fromFile (path : String)
  | random (shape : List Int) (kind : RandKind) (dtype : NpDtype)
deriving DecidableEq, Repr

/-- Python `s.rsplit(":", 1)` unpacked into two variables: `none` models the
`ValueError` when the string holds no `:`. -/
def rsplitColon1 (s : String) : Option (String × String) :=
  match (pySplit s ':').reverse with
  | [] => none
  | [_] => none
  | v :: rest => some (pyJoin ":" rest.reverse, v)

/-- The error message raised for an override naming an undeclared input. -/
def notFoundMsg (key : String) (info : List (String × PyInputInfo)) : String :=
  "model_check_input name:" ++ key ++ " not found in model, available keys: "
    ++ pyJoin " " (info.map (fun p => p.1))

/-- Python `int(val)` on plain decimal literals (an optional minus sign and
digits; the whitespace, plus-sign and underscore forms Python also accepts
are not used by this code path and are not modelled). -/
def pyInt (s : String) : Except String Int :=
  match s.data with
  | '-' :: ds =>
    match if ds.isEmpty then none else digitsAux 0 ds with
    | some n => .ok (-(n : Int))
    | none => .error ("ValueError: invalid literal for int with base 10: " ++ s)
  | ds =>
    match if ds.isEmpty then none else digitsAux 0 ds with
    | some n => .ok (n : Int)
    | none => .error ("ValueError: invalid literal for int with base 10: " ++ s)

/-- Python `[int(val) for val in value.split(",")]`. -/
def parseIntList (value : String) : Except String (List Int) :=
  (pySplit value ',').foldr
    (fun s acc =>
      match pyInt s, acc with
      | .ok v, .ok vs => .ok (v :: vs)
      | .error e, _ => .error e
      | _, .error e => .error e)
    (.ok [])

/-- Processing of one `model_check_input` override string. -/
def applyOverride (info : List (String × PyInputInfo)) (s : String) :
    Except String (List (String × PyInputInfo)) :=
  match rsplitColon1 s with
  | none => .error "ValueError: not enough values to unpack"
  | some (key, value) =>
    if strEndsWith value ".npy" then
      if alMem info key then
        .ok (alSet info key { data := some value, shape := none, dtype := none })
      else
        .error (notFoundMsg key info)
    else
      match parseIntList value with
      | .error e => .error e
      | .ok vs =>
        if alMem info key then
          match alFind info key with
          | some entry => .ok (alSet info key { entry with shape := some (vs.map Dim.value) })
          | none => .error "KeyError"
        else
          .error (notFoundMsg key info)

/-- The sanitize comprehension
`[shape if (shape != -1 and not isinstance(shape, str)) else 1 for shape in ...]`:
an integer other than `-1` is kept, `-1` and a symbolic name become `1`, and
a Python `None` entry (unknown dimension) passes through unchanged
(`none` here). -/
def sanitizeDim : Dim → Option Int
  | .value v => if v ≠ -1 then some v else some 1
  | .param _ => some 1
  | .unknown => none

/-- Generation for one input with no literal data: sanitize the shape,
substitute `[1]` for an empty shape, and draw from the dtype-selected random
source.  A surviving `None` dimension makes numpy raise `TypeError`. -/
def genForShape (shape : List Dim) (dtype : NpDtype) : Except String GenData :=
  let shapes := shape.map sanitizeDim
  let shapes := if shapes.isEmpty then [some 1] else shapes
  if shapes.all (fun o => o.isSome) then
    let dims := shapes.map (fun o => o.getD 1)
    if dtype = .int32 ∨ dtype = .int64 then
      .ok (.random dims (.randint 10) dtype)
    else
      .ok (.random dims .randfloat dtype)
  else
    .error "TypeError: NoneType object cannot be interpreted as an integer"

/-- Phase 1 of `gen_onnxruntime_input_data`: the `input_info` dict built
from the declared model inputs. -/
def buildInputInfo (inputs : List ValueInfoProto) :
    Except String (List (String × PyInputInfo)) :=
  inputs.foldl
    (fun acc vi =>
      match acc with
      | .error e => .error e
      | .ok info =>
        match onnx_dtype_to_numpy vi.ttype.elem_type with
        | .error e => .error e
        | .ok dt =>
          .ok (alSet info vi.name
            { data := none, shape := some (vi.ttype.shape.getD []), dtype := some dt }))
    (.ok [])

/-- Phase 3: the `input_data_dict` built from the (possibly overridden)
`input_info`. -/
def buildInputData (info : List (String × PyInputInfo)) :
    Except String (List (String × GenData)) :=
  info.foldr
    (fun p acc =>
      let gen : Except String GenData :=
        match p.2.data with
        | some path => .ok (.fromFile path)
        | none =>
          match p.2.shape, p.2.dtype with
          | some sh, some dt => genForShape sh dt
          | _, _ => .error "KeyError: shape"
      match gen, acc with
      | .ok g, .ok rest => .ok ((p.1, g) :: rest)
      | .error e, _ => .error e
      | _, .error e => .error e)
    (.ok [])

/-- The `for model_check_input in model_check_inputs` loop: the first raised
exception aborts the whole call. -/
def applyOverrides (info : List (String × PyInputInfo)) :
    List String → Except String (List (String × PyInputInfo))
  | [] => .ok info
  | s :: rest =>
    match applyOverride info s with
    | .error e => .error e
    | .ok info2 => applyOverrides info2 rest

/-- `gen_onnxruntime_input_data`: build `input_info` from the declared
inputs, apply the override strings in order, then synthesize data.  An empty
override list models `model_check_inputs=None` (the `if` guard also skips an
empty list). -/
def gen_onnxruntime_input_data (m : ModelProto) (model_check_inputs : List String) :
    Except String (List (String × GenData)) :=
  match buildInputInfo m.graph.input with
  | .error e => .error e
  | .ok info0 =>
    match applyOverrides info0 model_check_inputs with
    | .error e => .error e
    | .ok info => buildInputData info

/-! ### The result comparator (`check_result`)

Numpy arrays are modelled as a shape plus a flat list of values; a value is
either a rational or NaN.  `np.allclose` is modelled from the numpy
documentation: broadcast the two shapes (raising `ValueError` when they are
incompatible), then require `|a - b| <= atol + rtol * |b|` elementwise, with
NaN equal to NaN (`equal_nan=True`). -/

inductive Val where
  | nan
  | frac (num : Int) (den : Nat)
deriving DecidableEq, Repr

/-- A numpy array: shape and row-major flat data. -/
structure NArr where
  shape : List Nat
  data : List Val
deriving DecidableEq, Repr

/-- Broadcast two reversed shapes (trailing-dimension alignment). -/
def bcRev : List Nat → List Nat → Option (List Nat)
  | [], ys => some ys
  | xs, [] => some xs
  | x :: xs, y :: ys =>
    match bcRev xs ys with
    | none => none
    | some rest =>
      if x = y then some (x :: rest)
      else if x = 1 then some (y :: rest)
      else if y = 1 then some (x :: rest)
      else none

/-- The broadcast shape of two shapes, `none` when incompatible. -/
def broadcastShape (a b : List Nat) : Option (List Nat) :=
  (bcRev a.reverse b.reverse).map List.reverse

/-- Row-major flat position of a multi-index in a given shape. -/
def flatIndex (shape idx : List Nat) : Nat :=
  (shape.zip idx).foldl (fun acc p => acc * p.1 + p.2) 0

/-- Element of `a` at multi-index `idx` of the broadcast target shape `t`:
leading extra axes are dropped and size-1 axes are clamped to 0. -/
def bGet (a : NArr) (t idx : List Nat) : Val :=
  let idx' := idx.drop (t.length - a.shape.length)
  let j := a.shape.zipWith (fun s i => if s = 1 then 0 else i) idx'
  a.data.getD (flatIndex a.shape j) .nan

/-- All multi-indices of a shape, in row-major order. -/
def allIdx : List Nat → List (List Nat)
  | [] => [[]]
  | d :: ds => (List.range d).flatMap (fun i => (allIdx ds).map (fun r => i :: r))

/-- Elementwise closeness of two values at the tolerances of the call site
(`rtol=1e-03`, `atol=1e-04`, `equal_nan=True`): a finite value `n1/d1` is
close to `n2/d2` when `|n1/d1 - n2/d2| <= 1/10000 + (1/1000)*|n2/d2|`,
written in cleared-denominator integer form (see `isCloseVal_iff_rat`). -/
def isCloseVal : Val → Val → Bool
  | .nan, .nan => true
  | .frac n1 d1, .frac n2 d2 =>
    10000000 * (n1 * d2 - n2 * d1).natAbs ≤ 1000 * d1 * d2 + 10000 * n2.natAbs * d1
  | _, _ => false

/-- `np.allclose(a, b, rtol=1e-03, atol=1e-04, equal_nan=True)`. -/
def np_allclose (a b : NArr) : Except String Bool :=
  match broadcastShape a.shape b.shape with
  | none => .error "ValueError: operands could not be broadcast together"
  | some t =>
    .ok ((allIdx t).all (fun idx => isCloseVal (bGet a t idx) (bGet b t idx)))

/-- Python `repr` of `dict.keys()` as interpolated by the warning
f-strings. -/
def dictKeysRepr (l : List (String × NArr)) : String :=
  "dict_keys([" ++ pyJoin ", " (l.map (fun p => "\x27" ++ p.1 ++ "\x27")) ++ "])"

/-- `set(a.keys()) != set(b.keys())` — negated here: key-set equality. -/
def sameKeySet (a b : List (String × NArr)) : Bool :=
  a.all (fun p => alMem b p.1) && b.all (fun p => alMem a p.1)

/-- The per-key comparison loop of `check_result`: stops with two warnings
at the first key whose arrays are not close; any `ValueError` from
`np.allclose` propagates. -/
def checkResultLoop (slimmed : List (String × NArr)) :
    List (String × NArr) → Except String (List String)
  | [] => .ok []
  | (k, a) :: rest =>
    match alFind slimmed k with
    | none => .error "KeyError"
    | some b =>
      match np_allclose a b with
      | .error e => .error e
      | .ok true => checkResultLoop slimmed rest
      | .ok false =>
        .ok ["Model output mismatch after slimming.",
             "Please check the model carefully."]

/-- `check_result`: returns the list of emitted `logger.warning` events.
Differing key sets emit four warning lines and skip the per-key loop. -/
def check_result (raw slimmed : List (String × NArr)) : Except String (List String) :=
  if sameKeySet raw slimmed then
    checkResultLoop slimmed raw
  else
    .ok ["Model output mismatch after slimming.",
         "Raw model output keys: " ++ dictKeysRepr raw,
         "Slimmed model output keys: " ++ dictKeysRepr slimmed,
         "Please check the model carefully."]

/-! ### Filesystem model, `save` and `onnxruntime_inference`

Paths are plain strings; a relative path passed to `os.path.exists` /
`os.remove` resolves in the current working directory and is kept verbatim,
while the `location` argument of `onnx.save(..., save_as_external_data=True)`
resolves relative to the directory of the model path (per the ONNX
external-data convention).  The filesystem is the list of existing paths,
and each helper also returns the trace of operations it performed. -/

/-- `os.path.basename` for forward-slash paths. -/
def basename (p : String) : String :=
  match (pySplit p '/').reverse with
  | [] => p
  | x :: _ => x

/-- `os.path.dirname` for forward-slash paths. -/
def dirname (p : String) : String :=
  pyJoin "/" (pySplit p '/').dropLast

/-- `os.path.join` for one relative component. -/
def joinPath (d f : String) : String :=
  if d = "" then f else d ++ "/" ++ f

/-- One filesystem operation performed by `save` / the inference runner. -/
inductive FsOp where
  | removeFile (p : String)
  | writeInline (p : String)
  | writeExternal (primary : String) (dataFile : String)
deriving DecidableEq, Repr

/-- `os.path.exists` on the path set. -/
def pathExists (fs : List String) (p : String) : Bool :=
  fs.any (fun q => q = p)

/-- Record a written file. -/
def addFile (fs : List String) (p : String) : List String :=
  if pathExists fs p then fs else fs ++ [p]

/-- Apply one operation to the set of existing paths. -/
def applyFsOp (fs : List String) : FsOp → List String
  | .removeFile p => fs.filter (fun q => q ≠ p)
  | .writeInline p => addFile fs p
  | .writeExternal p d => addFile (addFile fs p) d

def applyFsOps (fs : List String) (ops : List FsOp) : List String :=
  ops.foldl applyFsOp fs

/-- `onnx.checker.MAXIMUM_PROTOBUF` (2e9, the protobuf serialization
ceiling). -/
def MAXIMUM_PROTOBUF : Nat := 2000000000

/-- `save(model, model_path, model_check)`: returns the emitted warnings and
the filesystem trace.  A `ValueError` from the structural checker is caught
and logged; any other checker exception propagates.  An empty `model_path`
skips the write entirely.  In the external-data branch the existence check
and removal target the bare `location` string (current working directory),
while the data file itself is written next to the model path. -/
def save (m : ModelProto) (model_path : String) (model_check : Bool)
    (fs : List String) : Except String (List String × List FsOp) :=
  let warn : Except String (List String) :=
    if model_check then
      match m.checkExc with
      | some .valueError => .ok ["Model too large and cannot be checked."]
      | some (.otherError e) => .error e
      | none => .ok []
    else .ok []
  match warn with
  | .error e => .error e
  | .ok ws =>
    if model_path = "" then .ok (ws, [])
    else if m.byteSize ≤ MAXIMUM_PROTOBUF then
      .ok (ws, [.writeInline model_path])
    else
      let location := basename model_path ++ ".data"
      let pre : List FsOp := if pathExists fs location then [.removeFile location] else []
      .ok (ws, pre ++ [.writeExternal model_path (joinPath (dirname model_path) location)])

/-- How the model object returned by `onnxruntime_inference` was obtained. -/
inductive ModelSource where
  | original
  | loadedFrom (path : String)
deriving DecidableEq, Repr

/-- The observable outcome of `onnxruntime_inference` relevant to the
serialization claims: whether the session consumed in-memory bytes, the
filesystem trace, and the provenance of the returned model object (the
session run itself is the external engine and is not modelled). -/
structure InferOut where
  inMemory : Bool
  trace : List FsOp
  returnedModel : ModelSource
deriving DecidableEq, Repr

/-- `onnxruntime_inference`: a model of byte size at least
`MAXIMUM_PROTOBUF` is written to `<tmpDir>/tmp.onnx` in external-data layout
(the stale-file check again targets the bare basename-derived `location`
string in the current working directory) and the returned model is reloaded
from that path; otherwise the model is serialized in-memory and returned
unchanged. -/
def onnxruntime_inference (m : ModelProto) (tmpDir : String) (fs : List String) :
    InferOut :=
  if m.byteSize ≥ MAXIMUM_PROTOBUF then
    let tmp_path := joinPath tmpDir "tmp.onnx"
    let location := basename tmp_path ++ ".data"
    let pre : List FsOp := if pathExists fs location then [.removeFile location] else []
    { inMemory := false
      trace := pre ++ [.writeExternal tmp_path (joinPath (dirname tmp_path) location)]
      returnedModel := .loadedFrom tmp_path }
  else
    { inMemory := true, trace := [], returnedModel := .original }

/-! ## Helper lemmas -/

theorem alGet_alSet_self {β : Type} (l : List (String × β)) (k : String) (v : β) (d : β) :
    alGet (alSet l k v) k d = v := by
  induction l with
  | nil => simp [alGet, alSet]
  | cons p rest ih =>
    by_cases h : p.1 = k
    · simp [alSet, h, alGet, List.find?]
    · simpa [alSet, h, alGet, List.find?, decide_eq_true_eq] using ih

theorem alGet_alSet_other {β : Type} (l : List (String × β)) (k t : String) (v : β) (d : β)
    (h : k ≠ t) : alGet (alSet l k v) t d = alGet l t d := by
  induction l with
  | nil => simp [alGet, alSet, List.find?, h]
  | cons p rest ih =>
    by_cases hp : p.1 = k
    · simp only [alSet, hp, if_pos rfl]
      simp [alGet, List.find?, h, hp]
    · simp only [alSet, hp, if_neg hp]
      by_cases ht : p.1 = t
      · simp [alGet, List.find?, ht]
      · simpa [alGet, List.find?, ht, decide_eq_true_eq] using ih

theorem alGet_alIncr (l : List (String × Nat)) (k t : String) :
    alGet (alIncr l k) t 0 = alGet l t 0 + (if k = t then 1 else 0) := by
  by_cases h : k = t
  · subst h
    simp [alIncr, alGet_alSet_self]
  · simp [alIncr, alGet_alSet_other l k t _ 0 h, h]

theorem alFind_alSet_self {β : Type} (l : List (String × β)) (k : String) (v : β) :
    alFind (alSet l k v) k = some v := by
  induction l with
  | nil => simp [alFind, alSet]
  | cons p rest ih =>
    by_cases h : p.1 = k
    · simp [alSet, h, alFind, List.find?]
    · simpa [alSet, h, alFind, List.find?, decide_eq_true_eq] using ih

theorem alFind_alSet_other {β : Type} (l : List (String × β)) (k t : String) (v : β)
    (h : k ≠ t) : alFind (alSet l k v) t = alFind l t := by
  induction l with
  | nil => simp [alFind, alSet, List.find?, h]
  | cons p rest ih =>
    by_cases hp : p.1 = k
    · simp only [alSet, hp, if_pos rfl]
      simp [alFind, List.find?, h, hp]
    · simp only [alSet, hp, if_neg hp]
      by_cases ht : p.1 = t
      · simp [alFind, List.find?, ht]
      · simpa [alFind, List.find?, ht, decide_eq_true_eq] using ih

theorem alMem_true_of_alFind {β : Type} (l : List (String × β)) (k : String) (v : β)
    (h : alFind l k = some v) : alMem l k = true := by
  induction l with
  | nil => simp [alFind] at h
  | cons p rest ih =>
    simp only [alMem, List.any_cons, Bool.or_eq_true, decide_eq_true_eq]
    by_cases hp : p.1 = k
    · exact Or.inl hp
    · right
      have h2 : alFind rest k = some v := by
        simp only [alFind, List.find?] at h ⊢
        rw [show (decide (p.1 = k)) = false by simp [hp]] at h
        exact h
      simpa [alMem] using ih h2

/-! ## Claim C2 — the byte formatter -/

theorem fbSteps_fst (r : Nat) : ∀ n D : Nat, (fbSteps n D r).1 = D * 1024 ^ (fbSteps n D r).2 := by
  induction r with
  | zero => intro n D; simp [fbSteps]
  | succ k ih =>
    intro n D
    by_cases h : 1024 * D ≤ n
    · simp only [fbSteps, if_pos h]
      rw [ih n (1024 * D), pow_succ]
      ring
    · simp [fbSteps, h]

theorem fbSteps_le (r : Nat) : ∀ n D : Nat, (fbSteps n D r).2 ≤ r := by
  induction r with
  | zero => intro n D; simp [fbSteps]
  | succ k ih =>
    intro n D
    by_cases h : 1024 * D ≤ n
    · simp only [fbSteps, if_pos h]
      exact Nat.succ_le_succ (ih n (1024 * D))
    · simp [fbSteps, h]

theorem fbSteps_stop (r : Nat) : ∀ n D : Nat, (fbSteps n D r).2 < r →
    n < 1024 * (fbSteps n D r).1 := by
  induction r with
  | zero => intro n D h; omega
  | succ k ih =>
    intro n D h
    by_cases hc : 1024 * D ≤ n
    · simp only [fbSteps, if_pos hc] at h ⊢
      exact ih n (1024 * D) (by omega)
    · simp only [fbSteps, if_neg hc]
      omega

theorem fbSteps_lower (r : Nat) : ∀ n D : Nat, 0 < (fbSteps n D r).2 →
    (fbSteps n D r).1 ≤ n := by
  induction r with
  | zero => intro n D h; simp [fbSteps] at h
  | succ k ih =>
    intro n D h
    by_cases hc : 1024 * D ≤ n
    · simp only [fbSteps, if_pos hc] at h ⊢
      by_cases h2 : 0 < (fbSteps n (1024 * D) k).2
      · exact ih n (1024 * D) h2
      · have h0 : (fbSteps n (1024 * D) k).2 = 0 := by omega
        have h1 := fbSteps_fst k n (1024 * D)
        rw [h0, pow_zero, mul_one] at h1
        rw [h1]
        exact hc
    · simp only [fbSteps, if_neg hc] at h
      omega

/-- The centi-value printed by the two-decimal formatting differs from the
exact ratio by at most half a cent. -/
theorem centiOfRat_precision (num den : Nat) (hden : 0 < den) :
    |(centiOfRat num den : ℚ) / 100 - (num : ℚ) / den| ≤ 1 / 200 := by
  have hdenQ : (0 : ℚ) < (den : ℚ) := by exact_mod_cast hden
  have h100d : (0 : ℚ) < 100 * (den : ℚ) := by positivity
  have hmod : 100 * num % den < den := Nat.mod_lt _ hden
  have hmodQ : ((100 * num % den : Nat) : ℚ) < (den : ℚ) := by exact_mod_cast hmod
  have hdiv : den * (100 * num / den) + 100 * num % den = 100 * num :=
    Nat.div_add_mod (100 * num) den
  have hdivQ : (den : ℚ) * ((100 * num / den : Nat) : ℚ) + ((100 * num % den : Nat) : ℚ)
      = 100 * (num : ℚ) := by exact_mod_cast hdiv
  set q : Nat := 100 * num / den with hq
  set r : Nat := 100 * num % den with hr
  have hval : (num : ℚ) / den = ((q : ℚ) * den + r) / (100 * den) := by
    rw [div_eq_div_iff (ne_of_gt hdenQ) (ne_of_gt h100d)]
    linear_combination (-(den : ℚ)) * hdivQ
  have keyA : 2 * r ≤ den → |(q : ℚ) / 100 - (num : ℚ) / den| ≤ 1 / 200 := by
    intro hhalf
    have hhQ : 2 * (r : ℚ) ≤ (den : ℚ) := by exact_mod_cast hhalf
    have eA : (q : ℚ) / 100 - ((q : ℚ) * den + r) / (100 * den) = -((r : ℚ) / (100 * den)) := by
      field_simp
      ring
    rw [hval, eA, abs_neg, abs_of_nonneg (by positivity)]
    rw [div_le_div_iff₀ h100d (by norm_num)]
    linarith
  have keyB : den ≤ 2 * r → |((q : ℚ) + 1) / 100 - (num : ℚ) / den| ≤ 1 / 200 := by
    intro hhalf
    have hhQ : (den : ℚ) ≤ 2 * (r : ℚ) := by exact_mod_cast hhalf
    have eB : ((q : ℚ) + 1) / 100 - ((q : ℚ) * den + r) / (100 * den)
        = ((den : ℚ) - r) / (100 * den) := by
      field_simp
      ring
    rw [hval, eB, abs_of_nonneg (div_nonneg (by linarith) (le_of_lt h100d))]
    rw [div_le_div_iff₀ h100d (by norm_num)]
    linarith
  unfold centiOfRat
  rw [← hq, ← hr]
  by_cases h1 : 2 * r < den
  · rw [if_pos h1]; exact keyA (by omega)
  · rw [if_neg h1]
    by_cases h2 : den < 2 * r
    · rw [if_pos h2]
      push_cast
      exact keyB (by omega)
    · rw [if_neg h2]
      by_cases h3 : q % 2 = 0
      · rw [if_pos h3]; exact keyA (by omega)
      · rw [if_neg h3]
        push_cast
        exact keyB (by omega)

/-- C2.  The byte formatter renders `0`, `1024`, `1536` and the pair
`(1024, 2048)` exactly as the specification states; a single count renders
as one formatted size and a pair renders both sizes with the second in
parentheses; each formatted size divides the count by 1024 once per unit
step over B, KB, MB, GB (the selected unit index `k` satisfies the loop
bounds, the rendered value is the exact fraction `n / 1024 ^ k`), and the
two-decimal rendering is within half a cent of that exact ratio. -/
theorem format_bytes_spec :
    format_bytes [0] = .ok "0.00 B"
    ∧ format_bytes [1024] = .ok "1.00 KB"
    ∧ format_bytes [1536] = .ok "1.50 KB"
    ∧ format_bytes [1024, 2048] = .ok "1.00 KB (2.00 KB)"
    ∧ (∀ n : Nat, format_bytes [n] = .ok (formatOneSize n))
    ∧ (∀ a b : Nat, format_bytes [a, b] = .ok (formatOneSize a ++ " (" ++ formatOneSize b ++ ")"))
    ∧ (∀ n : Nat,
        formatOneSize n =
          twoDecOfRat n (1024 ^ (fbSteps n 1 3).2) ++ " " ++ fbUnits.getD (fbSteps n 1 3).2 "B"
        ∧ (fbSteps n 1 3).2 ≤ 3
        ∧ ((fbSteps n 1 3).2 < 3 → n < 1024 ^ ((fbSteps n 1 3).2 + 1))
        ∧ (0 < (fbSteps n 1 3).2 → 1024 ^ (fbSteps n 1 3).2 ≤ n)
        ∧ |(centiOfRat n (1024 ^ (fbSteps n 1 3).2) : ℚ) / 100 - (n : ℚ) / 1024 ^ (fbSteps n 1 3).2| ≤ 1 / 200) := by
  refine ⟨by decide, by decide, by decide, by decide, ?_, ?_, ?_⟩
  · intro n; rfl
  · intro a b; rfl
  · intro n
    have hfst := fbSteps_fst 3 n 1
    rw [one_mul] at hfst
    refine ⟨?_, fbSteps_le 3 n 1, ?_, ?_, ?_⟩
    · show twoDecOfRat n (fbSteps n 1 3).1 ++ " " ++ fbUnits.getD (fbSteps n 1 3).2 "B" = _
      rw [hfst]
    · intro h
      have := fbSteps_stop 3 n 1 h
      rw [hfst] at this
      calc n < 1024 * 1024 ^ (fbSteps n 1 3).2 := this
        _ = 1024 ^ ((fbSteps n 1 3).2 + 1) := by rw [pow_succ]; ring
    · intro h
      have := fbSteps_lower 3 n 1 h
      rwa [hfst] at this
    · have h := centiOfRat_precision n (1024 ^ (fbSteps n 1 3).2) (pow_pos (by norm_num) _)
      push_cast at h
      exact h

/-- Witness for C2 at 1536 bytes: exactly one unit step is taken
(`1024 ≤ 1536 < 1024 ^ 2`) and the formatted string is the two-decimal
rendering of the exact fraction at that unit. -/
theorem format_bytes_spec_witness :
    formatOneSize 1536 =
      twoDecOfRat 1536 (1024 ^ (fbSteps 1536 1 3).2) ++ " "
        ++ fbUnits.getD (fbSteps 1536 1 3).2 "B"
    ∧ 1536 < 1024 ^ ((fbSteps 1536 1 3).2 + 1)
    ∧ 1024 ^ (fbSteps 1536 1 3).2 ≤ 1536 := by
  have h := format_bytes_spec.2.2.2.2.2.2 1536
  exact ⟨h.1, h.2.2.1 (by decide), h.2.2.2.1 (by decide)⟩

/-! ## Claim C9 — opset lookup and exception swallowing -/

/-- C9.  `get_opset` returns the version of the first imported opset whose
domain is `""` or `"ai.onnx"`, returns `None` when no such import exists,
and returns `None` when reading the opset information raises; a failure
there is swallowed — `summarize_model` still produces the summary, with the
opset string set to `"None"`. -/
theorem get_opset_spec :
    (∀ (m : ModelProto) (e : String), m.opset_import = .error e → get_opset m = none)
    ∧ (∀ (m : ModelProto) (imports : List OpsetImport), m.opset_import = .ok imports →
        get_opset m =
          (imports.find? (fun i => i.domain = "" || i.domain = "ai.onnx")).map OpsetImport.version)
    ∧ (∀ (m : ModelProto) (info : ModelInfo) (e : String), summarize_model m = .ok info →
        summarize_model { m with opset_import := .error e } = .ok { info with op_set := "None" }) := by
  refine ⟨?_, ?_, ?_⟩
  · intro m e h
    unfold get_opset
    rw [h]
  · intro m imports h
    unfold get_opset
    rw [h]
  · intro m info e h
    unfold summarize_model at h ⊢
    dsimp only at h ⊢
    cases hg : get_graph_node_info m.graph.value_info m.graph ⟨[], []⟩ with
    | error e2 => rw [hg] at h; exact absurd h (by simp)
    | ok st =>
      rw [hg] at h
      have hinfo : info = { model_size := m.byteSize
                            op_set := match get_opset m with
                                      | some v => toString v
                                      | none => "None"
                            op_info := st.opInfo
                            op_type_counts := st.counts
                            op_input_info := get_shape m.graph.input
                            op_output_info := get_shape m.graph.output } := by
        injection h with h2
        exact h2.symm
      subst hinfo
      have hop : get_opset { m with opset_import := .error e } = none := by
        unfold get_opset
        rfl
      rw [hop]

/-- Witness for C9 on concrete models: malformed opset information yields
`none`, the first default-domain import wins, and a malformed-opset model is
still summarized, with opset string `"None"`. -/
theorem get_opset_spec_witness :
    get_opset ⟨GraphProto.mk [] [] [] [], 10, .error "bad", none⟩ = none
    ∧ get_opset ⟨GraphProto.mk [] [] [] [], 10, .ok [⟨"custom", 5⟩, ⟨"", 17⟩], none⟩ = some 17
    ∧ summarize_model ⟨GraphProto.mk [] [] [] [], 10, .error "bad", none⟩ =
        .ok { model_size := 10, op_set := "None", op_info := [], op_type_counts := [],
              op_input_info := [], op_output_info := [] } := by
  refine ⟨?_, ?_, ?_⟩
  · exact get_opset_spec.1 _ "bad" rfl
  · rw [get_opset_spec.2.1 _ [⟨"custom", 5⟩, ⟨"", 17⟩] rfl]
    decide
  · exact get_opset_spec.2.2
      ⟨GraphProto.mk [] [] [] [], 10, .ok [⟨"custom", 5⟩, ⟨"", 17⟩], none⟩
      { model_size := 10, op_set := "17", op_info := [], op_type_counts := [],
        op_input_info := [], op_output_info := [] }
      "bad" (by decide)

/-! ## Claim C4 — override parsing and unknown-name errors -/

/-- C4.  Each override string is split on its last `:`; an undeclared name
fails — in both the `.npy` case and the shape case — with the lookup error
naming the unknown key and listing the declared input names; a declared name
with a comma-separated integer list becomes that input's shape; and the
first override failure aborts `gen_onnxruntime_input_data` with that
error. -/
theorem applyOverride_spec :
    (∀ (info : List (String × PyInputInfo)) (s key value : String),
      rsplitColon1 s = some (key, value) →
        notFoundMsg key info =
          "model_check_input name:" ++ key ++ " not found in model, available keys: "
            ++ pyJoin " " (info.map (fun p => p.1))
        ∧ (alMem info key = false → strEndsWith value ".npy" = true →
            applyOverride info s = .error (notFoundMsg key info))
        ∧ (∀ vs : List Int, alMem info key = false → strEndsWith value ".npy" = false →
            parseIntList value = .ok vs →
            applyOverride info s = .error (notFoundMsg key info))
        ∧ (∀ (entry : PyInputInfo) (vs : List Int),
            alFind info key = some entry → strEndsWith value ".npy" = false →
            parseIntList value = .ok vs →
            applyOverride info s = .ok (alSet info key { entry with shape := some (vs.map Dim.value) })))
    ∧ (∀ (m : ModelProto) (info0 : List (String × PyInputInfo)) (s : String)
        (rest : List String) (e : String),
        buildInputInfo m.graph.input = .ok info0 → applyOverride info0 s = .error e →
        gen_onnxruntime_input_data m (s :: rest) = .error e) := by
  constructor
  · intro info s key value hsplit
    refine ⟨rfl, ?_, ?_, ?_⟩
    · intro hmem hnpy
      unfold applyOverride
      rw [hsplit]
      dsimp only
      rw [hnpy, hmem]
      simp
    · intro vs hmem hnpy hparse
      unfold applyOverride
      rw [hsplit]
      dsimp only
      rw [hnpy, hparse, hmem]
      simp
    · intro entry vs hfind hnpy hparse
      have hmem : alMem info key = true := alMem_true_of_alFind info key entry hfind
      unfold applyOverride
      rw [hsplit]
      dsimp only
      rw [hnpy, hparse, hmem, hfind]
      simp
  · intro m info0 s rest e hbuild happ
    unfold gen_onnxruntime_input_data
    rw [hbuild]
    dsimp only
    have h2 : applyOverrides info0 (s :: rest) = .error e := by
      unfold applyOverrides
      rw [happ]
    rw [h2]

/-- Witness for C4: with declared input `x`, the override `"x:1,2,3"` forces
shape `(1, 2, 3)`, and an override naming undeclared `y` (in both the
`.npy` form and the shape form) raises the lookup error listing `x`; the
whole synthesizer call propagates it. -/
theorem applyOverride_spec_witness :
    rsplitColon1 "x:1,2,3" = some ("x", "1,2,3")
    ∧ notFoundMsg "y" [("x", ⟨none, some [Dim.value 3], some .float32⟩)] =
        "model_check_input name:y not found in model, available keys: x"
    ∧ applyOverride [("x", ⟨none, some [Dim.value 3], some .float32⟩)] "y:data.npy" =
        .error "model_check_input name:y not found in model, available keys: x"
    ∧ applyOverride [("x", ⟨none, some [Dim.value 3], some .float32⟩)] "y:7" =
        .error "model_check_input name:y not found in model, available keys: x"
    ∧ applyOverride [("x", ⟨none, some [Dim.value 3], some .float32⟩)] "x:1,2,3" =
        .ok [("x", ⟨none, some [Dim.value 1, Dim.value 2, Dim.value 3], some .float32⟩)]
    ∧ gen_onnxruntime_input_data
        ⟨GraphProto.mk [] [⟨"x", ⟨1, some [Dim.value 3]⟩⟩] [] [], 9, .ok [], none⟩ ["y:7"] =
        .error "model_check_input name:y not found in model, available keys: x" := by
  have h1 := (applyOverride_spec.1 [("x", ⟨none, some [Dim.value 3], some .float32⟩)]
    "y:data.npy" "y" "data.npy" (by decide)).2.1 (by decide) (by decide)
  have h2 := (applyOverride_spec.1 [("x", ⟨none, some [Dim.value 3], some .float32⟩)]
    "y:7" "y" "7" (by decide)).2.2.1 [7] (by decide) (by decide) (by decide)
  have h3 := (applyOverride_spec.1 [("x", ⟨none, some [Dim.value 3], some .float32⟩)]
    "x:1,2,3" "x" "1,2,3" (by decide)).2.2.2
    ⟨none, some [Dim.value 3], some .float32⟩ [1, 2, 3] (by decide) (by decide) (by decide)
  have h4 := applyOverride_spec.2
    ⟨GraphProto.mk [] [⟨"x", ⟨1, some [Dim.value 3]⟩⟩] [] [], 9, .ok [], none⟩
    [("x", ⟨none, some [Dim.value 3], some .float32⟩)] "y:7" [] _ (by decide) h2
  exact ⟨by decide, by decide, h1, h2, h3, h4⟩

/-! ## Claim C5 — the result comparator -/

/-- The integer form of `isCloseVal` is exactly the numpy closeness test
`|a - b| <= atol + rtol * |b|` at `rtol = 1/1000`, `atol = 1/10000`, read on
the exact rational values of the two fractions. -/
theorem isCloseVal_iff_rat (n1 : Int) (d1 : Nat) (n2 : Int) (d2 : Nat)
    (h1 : 0 < d1) (h2 : 0 < d2) :
    isCloseVal (.frac n1 d1) (.frac n2 d2) = true ↔
      |(n1 : ℚ) / d1 - (n2 : ℚ) / d2| ≤ 1 / 10000 + (1 / 1000) * |(n2 : ℚ) / d2| := by
  have hd1 : (0 : ℚ) < (d1 : ℚ) := by exact_mod_cast h1
  have hd2 : (0 : ℚ) < (d2 : ℚ) := by exact_mod_cast h2
  have hlhs : |(n1 : ℚ) / d1 - (n2 : ℚ) / d2|
      = (((n1 * d2 - n2 * d1).natAbs : ℚ)) / ((d1 : ℚ) * d2) := by
    rw [div_sub_div _ _ (ne_of_gt hd1) (ne_of_gt hd2), abs_div,
      abs_of_pos (by positivity : (0 : ℚ) < (d1 : ℚ) * d2), Int.cast_natAbs]
    congr 1
    push_cast
    ring_nf
  have hrhs : (1 : ℚ) / 10000 + (1 / 1000) * |(n2 : ℚ) / d2|
      = ((1000 : ℚ) * d2 + 10000 * n2.natAbs) / (10000000 * d2) := by
    rw [abs_div, abs_of_pos hd2, Int.cast_natAbs]
    field_simp
    ring
  rw [hlhs, hrhs, div_le_div_iff₀ (by positivity) (by positivity),
    show (((n1 * d2 - n2 * d1).natAbs : ℚ)) * (10000000 * d2)
        = ((10000000 * (n1 * d2 - n2 * d1).natAbs : ℕ) : ℚ) * d2 by push_cast; ring,
    show ((1000 : ℚ) * d2 + 10000 * n2.natAbs) * ((d1 : ℚ) * d2)
        = ((1000 * d1 * d2 + 10000 * n2.natAbs * d1 : ℕ) : ℚ) * d2 by push_cast; ring,
    mul_le_mul_right hd2]
  rw [show isCloseVal (.frac n1 d1) (.frac n2 d2)
      = decide (10000000 * (n1 * d2 - n2 * d1).natAbs
          ≤ 1000 * d1 * d2 + 10000 * n2.natAbs * d1) from rfl]
  rw [decide_eq_true_eq]
  exact_mod_cast Iff.rfl

theorem alFind_isSome_of_alMem {β : Type} (l : List (String × β)) (k : String)
    (h : alMem l k = true) : ∃ v, alFind l k = some v := by
  induction l with
  | nil => simp [alMem] at h
  | cons p rest ih =>
    by_cases hp : p.1 = k
    · exact ⟨p.2, by simp [alFind, List.find?, hp]⟩
    · simp only [alMem, List.any_cons, Bool.or_eq_true, decide_eq_true_eq] at h
      rcases h with h | h

      · exact absurd h hp
      · obtain ⟨v, hv⟩ := ih (by simpa [alMem] using h)
        refine ⟨v, ?_⟩
        simp only [alFind, List.find?] at hv ⊢
        rw [show (decide (p.1 = k)) = false by simp [hp]]
        exact hv

/-- Counterexample to C5 as stated: on output sets with differing key sets
the comparator emits four warning events (four `logger.warning` calls), not
exactly one. -/
theorem check_result_counterexample :
    check_result [("a", ⟨[1], [.frac 0 1]⟩)] [("b", ⟨[1], [.frac 0 1]⟩)] =
      .ok ["Model output mismatch after slimming.",
           "Raw model output keys: dict_keys([\x27a\x27])",
           "Slimmed model output keys: dict_keys([\x27b\x27])",
           "Please check the model carefully."]
    ∧ (check_result [("a", ⟨[1], [.frac 0 1]⟩)] [("b", ⟨[1], [.frac 0 1]⟩)]).map List.length
        ≠ .ok 1 := by
  constructor
  · decide
  · decide

/-- C5 (amended).  The comparator returns normally whenever every per-key
`np.allclose` call does (in particular it never raises on differing key
sets, and broadcast-incompatible same-key arrays are the only failure
source); identical key sets whose arrays are all element-wise close
(rtol 1e-3, atol 1e-4, NaN equal) produce no warning; differing key sets
produce one mismatch report of exactly four warning lines and return
without any per-key comparison. -/
theorem check_result_spec :
    (∀ raw slimmed : List (String × NArr),
      sameKeySet raw slimmed = false →
      check_result raw slimmed =
        .ok ["Model output mismatch after slimming.",
             "Raw model output keys: " ++ dictKeysRepr raw,
             "Slimmed model output keys: " ++ dictKeysRepr slimmed,
             "Please check the model carefully."])
    ∧ (∀ raw slimmed : List (String × NArr),
        sameKeySet raw slimmed = true →
        (∀ p ∈ raw, ∀ b : NArr, alFind slimmed p.1 = some b → np_allclose p.2 b = .ok true) →
        check_result raw slimmed = .ok [])
    ∧ (∀ raw slimmed : List (String × NArr),
        (∀ p ∈ raw, ∀ b : NArr, alFind slimmed p.1 = some b → (np_allclose p.2 b).isOk = true) →
        (check_result raw slimmed).isOk = true) := by
  have loopOk : ∀ (slimmed raw : List (String × NArr)),
      raw.all (fun p => alMem slimmed p.1) = true →
      (∀ p ∈ raw, ∀ b : NArr, alFind slimmed p.1 = some b → np_allclose p.2 b = .ok true) →
      checkResultLoop slimmed raw = .ok [] := by
    intro slimmed raw
    induction raw with
    | nil => intro _ _; rfl
    | cons p rest ih =>
      intro hall hclose
      simp only [List.all_cons, Bool.and_eq_true] at hall
      obtain ⟨b, hb⟩ := alFind_isSome_of_alMem slimmed p.1 hall.1
      have hcl := hclose p (List.mem_cons_self p rest) b hb
      show checkResultLoop slimmed (p :: rest) = .ok []
      unfold checkResultLoop
      rw [hb]
      dsimp only
      rw [hcl]
      exact ih hall.2 (fun q hq => hclose q (List.mem_cons_of_mem p hq))
  have loopIsOk : ∀ (slimmed raw : List (String × NArr)),
      raw.all (fun p => alMem slimmed p.1) = true →
      (∀ p ∈ raw, ∀ b : NArr, alFind slimmed p.1 = some b → (np_allclose p.2 b).isOk = true) →
      (checkResultLoop slimmed raw).isOk = true := by
    intro slimmed raw
    induction raw with
    | nil => intro _ _; rfl
    | cons p rest ih =>
      intro hall hclose
      simp only [List.all_cons, Bool.and_eq_true] at hall
      obtain ⟨b, hb⟩ := alFind_isSome_of_alMem slimmed p.1 hall.1
      have hok := hclose p (List.mem_cons_self p rest) b hb
      show (checkResultLoop slimmed (p :: rest)).isOk = true
      unfold checkResultLoop
      rw [hb]
      dsimp only
      cases hcl : np_allclose p.2 b with
      | error e =>
        rw [hcl] at hok
        simp [Except.isOk, Except.toBool] at hok
      | ok v =>
        cases v
        · rfl
        · exact ih hall.2 (fun q hq => hclose q (List.mem_cons_of_mem p hq))
  refine ⟨?_, ?_, ?_⟩
  · intro raw slimmed h
    unfold check_result
    rw [h]
    simp
  · intro raw slimmed hsame hclose
    unfold check_result
    rw [hsame]
    simp only [if_true]
    have hall : raw.all (fun p => alMem slimmed p.1) = true := by
      unfold sameKeySet at hsame
      exact (Bool.and_eq_true _ _ |>.mp hsame).1
    exact loopOk slimmed raw hall hclose
  · intro raw slimmed hclose
    unfold check_result
    cases hsame : sameKeySet raw slimmed
    · rfl
    · simp only [if_true]
      have hall : raw.all (fun p => alMem slimmed p.1) = true := by
        unfold sameKeySet at hsame
        exact (Bool.and_eq_true _ _ |>.mp hsame).1
      exact loopIsOk slimmed raw hall hclose

/-- Witness for the amended C5 at concrete outputs: close arrays (one value
a tenth of the absolute tolerance apart, one NaN position in both) yield no
warning; differing key sets yield the four-line mismatch report. -/
theorem check_result_spec_witness :
    check_result [("a", ⟨[2], [.frac 1 2, .nan]⟩)] [("a", ⟨[2], [.frac 10001 20000, .nan]⟩)] =
      .ok []
    ∧ check_result [("a", ⟨[1], [.frac 0 1]⟩)] [("c", ⟨[1], [.frac 0 1]⟩)] =
        .ok ["Model output mismatch after slimming.",
             "Raw model output keys: dict_keys([\x27a\x27])",
             "Slimmed model output keys: dict_keys([\x27c\x27])",
             "Please check the model carefully."]
    ∧ (check_result [("a", ⟨[1], [.frac 0 1]⟩)] [("a", ⟨[2], [.frac 0 1, .frac 0 1]⟩)]).isOk
        = true := by
  refine ⟨?_, ?_, ?_⟩
  · refine check_result_spec.2.1 _ _ (by decide) ?_
    intro p hp b hb
    rw [List.mem_singleton] at hp
    subst hp
    have hb2 : b = ⟨[2], [.frac 10001 20000, .nan]⟩ := by
      rw [show alFind [("a", (⟨[2], [.frac 10001 20000, .nan]⟩ : NArr))] "a"
          = some ⟨[2], [.frac 10001 20000, .nan]⟩ from by decide] at hb
      injection hb with h2
      exact h2.symm
    subst hb2
    decide
  · exact check_result_spec.1 _ _ (by decide)
  · refine check_result_spec.2.2 _ _ ?_
    intro p hp b hb
    rw [List.mem_singleton] at hp
    subst hp
    have hb2 : b = ⟨[2], [.frac 0 1, .frac 0 1]⟩ := by
      rw [show alFind [("a", (⟨[2], [.frac 0 1, .frac 0 1]⟩ : NArr))] "a"
          = some ⟨[2], [.frac 0 1, .frac 0 1]⟩ from by decide] at hb
      injection hb with h2
      exact h2.symm
    subst hb2
    decide

/-! ## Claims C6 and C7 — persistence and the inference runner -/

theorem pathExists_iff (fs : List String) (q : String) : pathExists fs q = true ↔ q ∈ fs := by
  simp [pathExists, List.any_eq_true]

theorem mem_addFile (fs : List String) (p q : String) :
    q ∈ addFile fs p ↔ q ∈ fs ∨ q = p := by
  unfold addFile
  by_cases h : pathExists fs p = true
  · rw [if_pos h]
    have hp : p ∈ fs := (pathExists_iff fs p).mp h
    constructor
    · exact Or.inl
    · rintro (hq | rfl)
      · exact hq
      · exact hp
  · rw [if_neg h]
    simp [List.mem_append]

theorem mem_filter_ne (fs : List String) (p q : String) :
    q ∈ fs.filter (fun r => r ≠ p) ↔ q ∈ fs ∧ q ≠ p := by
  simp [List.mem_filter]

/-- Counterexample to C6 as stated: saving an oversized model to
`"d/m.onnx"` over a filesystem that already holds a file at the data
location `"d/m.onnx.data"` performs no removal at all — the stale-file check
resolves `basename(path) + ".data"` in the current working directory
(`"m.onnx.data"`), not at the data location — so the pre-existing file at
the data location is not removed first. -/
theorem save_counterexample :
    save ⟨GraphProto.mk [] [] [] [], 2500000000, .ok [], none⟩ "d/m.onnx" false
        ["d/m.onnx.data"] =
      .ok ([], [.writeExternal "d/m.onnx" "d/m.onnx.data"])
    ∧ ([FsOp.writeExternal "d/m.onnx" "d/m.onnx.data"].contains
        (FsOp.removeFile "d/m.onnx.data")) = false := by
  constructor
  · decide
  · decide

/-- C6 (amended).  For every model and non-empty path: a model within the
protobuf ceiling is written as a single inline file (which then exists);
above the ceiling exactly one primary file and one external data file are
written (both then exist), preceded by a removal of the pre-existing file
named `basename(path) + ".data"` as resolved in the current working
directory — a path that coincides with the data location only when the save
path has no directory component — and that working-directory name is absent
afterwards (unless it names the primary or data file itself); with
`model_check` enabled a `ValueError` from the structural checker is
downgraded to a logged warning and the save still proceeds identically. -/
theorem save_spec :
    (∀ (m : ModelProto) (path : String) (mc : Bool) (fs : List String)
      (ws : List String) (ops : List FsOp),
      path ≠ "" → m.byteSize ≤ MAXIMUM_PROTOBUF →
      save m path mc fs = .ok (ws, ops) →
      ops = [.writeInline path] ∧ path ∈ applyFsOps fs ops)
    ∧ (∀ (m : ModelProto) (path : String) (mc : Bool) (fs : List String)
        (ws : List String) (ops : List FsOp),
        path ≠ "" → MAXIMUM_PROTOBUF < m.byteSize →
        save m path mc fs = .ok (ws, ops) →
        ops = (if pathExists fs (basename path ++ ".data")
               then [FsOp.removeFile (basename path ++ ".data")] else [])
              ++ [FsOp.writeExternal path (joinPath (dirname path) (basename path ++ ".data"))]
        ∧ path ∈ applyFsOps fs ops
        ∧ joinPath (dirname path) (basename path ++ ".data") ∈ applyFsOps fs ops
        ∧ (basename path ++ ".data" ≠ path →
           basename path ++ ".data" ≠ joinPath (dirname path) (basename path ++ ".data") →
           basename path ++ ".data" ∉ applyFsOps fs ops))
    ∧ (∀ (m : ModelProto) (path : String) (fs : List String),
        m.checkExc = some .valueError →
        (save m path true fs).map Prod.fst = .ok ["Model too large and cannot be checked."]
        ∧ (save m path true fs).map Prod.snd = (save m path false fs).map Prod.snd) := by
  refine ⟨?_, ?_, ?_⟩
  · intro m path mc fs ws ops hpath hsize hsave
    unfold save at hsave
    dsimp only at hsave
    cases hw : (if mc then
        match m.checkExc with
        | some .valueError => Except.ok ["Model too large and cannot be checked."]
        | some (.otherError e) => Except.error e
        | none => Except.ok []
      else Except.ok ([] : List String)) with
    | error e => rw [hw] at hsave; exact absurd hsave (by simp)
    | ok ws2 =>
      rw [hw] at hsave
      dsimp only at hsave
      rw [if_neg hpath, if_pos hsize] at hsave
      injection hsave with h2
      injection h2 with hws hops
      subst hops
      refine ⟨rfl, ?_⟩
      show path ∈ applyFsOp fs (.writeInline path)
      exact (mem_addFile fs path path).mpr (Or.inr rfl)
  · intro m path mc fs ws ops hpath hsize hsave
    unfold save at hsave
    dsimp only at hsave
    cases hw : (if mc then
        match m.checkExc with
        | some .valueError => Except.ok ["Model too large and cannot be checked."]
        | some (.otherError e) => Except.error e
        | none => Except.ok []
      else Except.ok ([] : List String)) with
    | error e => rw [hw] at hsave; exact absurd hsave (by simp)
    | ok ws2 =>
      rw [hw] at hsave
      dsimp only at hsave
      rw [if_neg hpath, if_neg (by omega : ¬ m.byteSize ≤ MAXIMUM_PROTOBUF)] at hsave
      injection hsave with h2
      injection h2 with hws hops
      subst hops
      refine ⟨rfl, ?_, ?_, ?_⟩
      · cases hex : pathExists fs (basename path ++ ".data")
        · simp only [hex, Bool.false_eq_true, if_false, List.nil_append]
          show path ∈ applyFsOp fs (.writeExternal _ _)
          simp only [applyFsOp]
          exact (mem_addFile _ _ _).mpr (Or.inl ((mem_addFile _ _ _).mpr (Or.inr rfl)))
        · simp only [hex, if_true, List.singleton_append]
          show path ∈ applyFsOp (applyFsOp fs (.removeFile _)) (.writeExternal _ _)
          simp only [applyFsOp]
          exact (mem_addFile _ _ _).mpr (Or.inl ((mem_addFile _ _ _).mpr (Or.inr rfl)))
      · cases hex : pathExists fs (basename path ++ ".data")
        · simp only [hex, Bool.false_eq_true, if_false, List.nil_append]
          show joinPath (dirname path) (basename path ++ ".data") ∈
            applyFsOp fs (.writeExternal _ _)
          simp only [applyFsOp]
          exact (mem_addFile _ _ _).mpr (Or.inr rfl)
        · simp only [hex, if_true, List.singleton_append]
          show joinPath (dirname path) (basename path ++ ".data") ∈
            applyFsOp (applyFsOp fs (.removeFile _)) (.writeExternal _ _)
          simp only [applyFsOp]
          exact (mem_addFile _ _ _).mpr (Or.inr rfl)
      · intro hne1 hne2
        cases hex : pathExists fs (basename path ++ ".data")
        · simp only [hex, Bool.false_eq_true, if_false, List.nil_append]
          show basename path ++ ".data" ∉ applyFsOp fs (.writeExternal _ _)
          simp only [applyFsOp]
          intro hmem
          rcases (mem_addFile _ _ _).mp hmem with hmem2 | heq
          · rcases (mem_addFile _ _ _).mp hmem2 with hmem3 | heq
            · have : pathExists fs (basename path ++ ".data") = true :=
                (pathExists_iff _ _).mpr hmem3
              rw [hex] at this
              exact absurd this (by simp)
            · exact hne1 heq
          · exact hne2 heq
        · simp only [hex, if_true, List.singleton_append]
          show basename path ++ ".data" ∉
            applyFsOp (applyFsOp fs (.removeFile _)) (.writeExternal _ _)
          simp only [applyFsOp]
          intro hmem
          rcases (mem_addFile _ _ _).mp hmem with hmem2 | heq
          · rcases (mem_addFile _ _ _).mp hmem2 with hmem3 | heq
            · exact ((mem_filter_ne _ _ _).mp hmem3).2 rfl
            · exact hne1 heq
          · exact hne2 heq
  · intro m path fs hchk
    constructor
    · simp only [save, hchk]
      split_ifs <;> rfl
    · simp only [save, hchk]
      split_ifs <;> rfl

/-- Witness for the amended C6: an inline save creates the file; an
oversized save to `"d/big.onnx"` over a stale working-directory
`"big.onnx.data"` removes that name, creates the primary and data files, and
leaves the working-directory name absent; a `ValueError` from checking is
downgraded to the warning. -/
theorem save_spec_witness :
    "m.onnx" ∈ applyFsOps [] [FsOp.writeInline "m.onnx"]
    ∧ "d/big.onnx" ∈ applyFsOps ["big.onnx.data"]
        [FsOp.removeFile "big.onnx.data", FsOp.writeExternal "d/big.onnx" "d/big.onnx.data"]
    ∧ "d/big.onnx.data" ∈ applyFsOps ["big.onnx.data"]
        [FsOp.removeFile "big.onnx.data", FsOp.writeExternal "d/big.onnx" "d/big.onnx.data"]
    ∧ "big.onnx.data" ∉ applyFsOps ["big.onnx.data"]
        [FsOp.removeFile "big.onnx.data", FsOp.writeExternal "d/big.onnx" "d/big.onnx.data"]
    ∧ (save ⟨GraphProto.mk [] [] [] [], 10, .ok [], some .valueError⟩ "p.onnx" true []).map
        Prod.fst = .ok ["Model too large and cannot be checked."] := by
  have h1 := save_spec.1 ⟨GraphProto.mk [] [] [] [], 10, .ok [], none⟩ "m.onnx" false [] []
    [FsOp.writeInline "m.onnx"] (by decide) (by decide) (by decide)
  have h2 := save_spec.2.1 ⟨GraphProto.mk [] [] [] [], 2500000000, .ok [], none⟩ "d/big.onnx"
    false ["big.onnx.data"] []
    [FsOp.removeFile "big.onnx.data", FsOp.writeExternal "d/big.onnx" "d/big.onnx.data"]
    (by decide) (by decide) (by decide)
  have h3 := save_spec.2.2 ⟨GraphProto.mk [] [] [] [], 10, .ok [], some .valueError⟩
    "p.onnx" [] rfl
  exact ⟨h1.2, h2.2.1, h2.2.2.1, h2.2.2.2 (by decide) (by decide), h3.1⟩

/-- Counterexample to C7 as stated: a model whose serialized size equals the
protobuf ceiling does not exceed it, yet the runner takes the external-data
path rather than serializing in-memory (the source tests `>=`). -/
theorem onnxruntime_inference_counterexample :
    (onnxruntime_inference ⟨GraphProto.mk [] [] [] [], 2000000000, .ok [], none⟩
      "/tmpdir" []).inMemory = false
    ∧ (⟨GraphProto.mk [] [] [] [], 2000000000, .ok [], none⟩ : ModelProto).byteSize
        ≤ MAXIMUM_PROTOBUF := by
  constructor
  · decide
  · decide

/-- C7 (amended).  The inference runner serializes the model in-memory
exactly when its byte size is strictly below the protobuf ceiling; when the
size is at least the ceiling it writes the model to `<tmpDir>/tmp.onnx` in
external-data layout with a single auxiliary data file — first removing a
file named `tmp.onnx.data` resolved in the current working directory, not at
the temporary location — and reloads the returned model object from the
temporary path after inference. -/
theorem onnxruntime_inference_spec :
    ∀ (m : ModelProto) (tmpDir : String) (fs : List String),
      basename (joinPath tmpDir "tmp.onnx") = "tmp.onnx" →
      ((onnxruntime_inference m tmpDir fs).inMemory = true ↔ m.byteSize < MAXIMUM_PROTOBUF)
      ∧ (m.byteSize < MAXIMUM_PROTOBUF →
          onnxruntime_inference m tmpDir fs = ⟨true, [], .original⟩)
      ∧ (MAXIMUM_PROTOBUF ≤ m.byteSize →
          onnxruntime_inference m tmpDir fs =
            ⟨false,
             (if pathExists fs "tmp.onnx.data" then [FsOp.removeFile "tmp.onnx.data"] else [])
               ++ [FsOp.writeExternal (joinPath tmpDir "tmp.onnx")
                     (joinPath (dirname (joinPath tmpDir "tmp.onnx")) "tmp.onnx.data")],
             .loadedFrom (joinPath tmpDir "tmp.onnx")⟩) := by
  intro m tmpDir fs hbn
  unfold onnxruntime_inference
  by_cases h : MAXIMUM_PROTOBUF ≤ m.byteSize
  · rw [if_pos h]
    dsimp only
    rw [hbn]
    refine ⟨?_, ?_, ?_⟩
    · simp only [Bool.false_eq_true, false_iff]
      omega
    · intro hlt
      omega
    · intro _
      rfl
  · rw [if_neg h]
    refine ⟨?_, ?_, ?_⟩
    · simp only [true_iff]
      omega
    · intro _
      rfl
    · intro hge
      exact absurd hge h

/-- Witness for the amended C7 at concrete models: a small model runs from
in-memory bytes with no filesystem traffic and returns the original object;
a model at 2.5e9 bytes removes the stale working-directory
`tmp.onnx.data`, writes the external pair under the temporary directory and
reloads from there. -/
theorem onnxruntime_inference_spec_witness :
    onnxruntime_inference ⟨GraphProto.mk [] [] [] [], 10, .ok [], none⟩ "/t" [] =
      ⟨true, [], .original⟩
    ∧ onnxruntime_inference ⟨GraphProto.mk [] [] [] [], 2500000000, .ok [], none⟩ "/t"
        ["tmp.onnx.data"] =
      ⟨false, [.removeFile "tmp.onnx.data", .writeExternal "/t/tmp.onnx" "/t/tmp.onnx.data"],
       .loadedFrom "/t/tmp.onnx"⟩ := by
  constructor
  · exact (onnxruntime_inference_spec ⟨GraphProto.mk [] [] [] [], 10, .ok [], none⟩ "/t" []
      (by decide)).2.1 (by decide)
  · have h := (onnxruntime_inference_spec
      ⟨GraphProto.mk [] [] [] [], 2500000000, .ok [], none⟩ "/t" ["tmp.onnx.data"]
      (by decide)).2.2 (by decide)
    rw [h]
    decide

/-! ## Claim C1 — operator-type counts -/

/-- The counting invariant of the recursive node walk, stated for the three
mutually recursive loops at once and proved by strong induction on size:
a successful walk adds exactly the specification-side operator count to
every entry of the running count table. -/
theorem counts_invariant :
    ∀ fuel : Nat,
      (∀ (vis : List ValueInfoProto) (nodes : List NodeProto), sizeOf nodes ≤ fuel →
        ∀ (shapes : Option (List ShapeEntry)) (st st' : SState),
        nodeLoop vis nodes shapes st = .ok st' →
        ∀ t, alGet st'.counts t 0 = alGet st.counts t 0 + specNodesOpCount nodes t)
      ∧ (∀ (vis : List ValueInfoProto) (attrs : List AttributeProto), sizeOf attrs ≤ fuel →
          ∀ (st st' : SState), attrLoop vis attrs st = .ok st' →
          ∀ t, alGet st'.counts t 0 = alGet st.counts t 0 + specAttrsOpCount attrs t)
      ∧ (∀ (vis : List ValueInfoProto) (g : GraphProto), sizeOf g ≤ fuel →
          ∀ (st st' : SState), get_graph_node_info vis g st = .ok st' →
          ∀ t, alGet st'.counts t 0 = alGet st.counts t 0 + specGraphOpCount g t) := by
  intro fuel
  induction fuel using Nat.strong_induction_on with
  | _ fuel ih =>
    refine ⟨?_, ?_, ?_⟩
    · intro vis nodes hsz shapes st st' h t
      cases nodes with
      | nil =>
        unfold nodeLoop at h
        injection h with h2
        subst h2
        simp [specNodesOpCount]
      | cons n rest =>
        cases n with
        | mk nm opType outputs attrs =>
          unfold nodeLoop at h
          dsimp only at h
          cases hsh : outputLoop vis outputs shapes with
          | none => rw [hsh] at h; exact absurd h (by simp)
          | some sh =>
            rw [hsh] at h
            dsimp only at h
            cases ha : attrLoop vis attrs
                ⟨alIncr st.counts opType, alSet st.opInfo nm (opType, sh)⟩ with
            | error e => rw [ha] at h; exact absurd h (by simp)
            | ok st3 =>
              rw [ha] at h
              dsimp only at h
              have hszr : sizeOf rest < fuel := by
                have hspec := List.cons.sizeOf_spec (NodeProto.mk nm opType outputs attrs) rest
                omega
              have hsza : sizeOf attrs < fuel := by
                have hspec := List.cons.sizeOf_spec (NodeProto.mk nm opType outputs attrs) rest
                have hspec2 := NodeProto.mk.sizeOf_spec nm opType outputs attrs
                omega
              have hrec := (ih (sizeOf rest) hszr).1 vis rest (le_refl _) (some sh) st3 st' h t
              have hatt := (ih (sizeOf attrs) hsza).2.1 vis attrs (le_refl _) _ st3 ha t
              dsimp only at hatt
              rw [alGet_alIncr] at hatt
              have hspecN : specNodesOpCount (NodeProto.mk nm opType outputs attrs :: rest) t
                  = (if opType = t then 1 else 0) + specAttrsOpCount attrs t
                    + specNodesOpCount rest t := rfl
              rw [hrec, hatt, hspecN]
              omega
    · intro vis attrs hsz st st' h t
      cases attrs with
      | nil =>
        unfold attrLoop at h
        injection h with h2
        subst h2
        simp [specAttrsOpCount]
      | cons a rest =>
        cases a with
        | mk ty g =>
          unfold attrLoop at h
          have hszr : sizeOf rest < fuel := by
            have hspec := List.cons.sizeOf_spec (AttributeProto.mk ty g) rest
            omega
          have hszg : sizeOf g < fuel := by
            have hspec := List.cons.sizeOf_spec (AttributeProto.mk ty g) rest
            have hspec2 := AttributeProto.mk.sizeOf_spec ty g
            omega
          by_cases hty : ty = 5
          · rw [if_pos hty] at h
            cases hg : get_graph_node_info vis g st with
            | error e => rw [hg] at h; exact absurd h (by simp)
            | ok st1 =>
              rw [hg] at h
              dsimp only at h
              have hrec := (ih (sizeOf rest) hszr).2.1 vis rest (le_refl _) st1 st' h t
              have hgr := (ih (sizeOf g) hszg).2.2 vis g (le_refl _) st st1 hg t
              have hspecA : specAttrsOpCount (AttributeProto.mk ty g :: rest) t
                  = (if ty = 5 then specGraphOpCount g t else 0) + specAttrsOpCount rest t := rfl
              rw [hrec, hgr, hspecA, if_pos hty]
              omega
          · rw [if_neg hty] at h
            dsimp only at h
            have hrec := (ih (sizeOf rest) hszr).2.1 vis rest (le_refl _) st st' h t
            have hspecA : specAttrsOpCount (AttributeProto.mk ty g :: rest) t
                  = (if ty = 5 then specGraphOpCount g t else 0) + specAttrsOpCount rest t := rfl
            rw [hrec, hspecA, if_neg hty]
            omega
    · intro vis g hsz st st' h t
      cases g with
      | mk nodes gin gout gvi =>
        unfold get_graph_node_info at h
        have hszn : sizeOf nodes < fuel := by
          have hspec := GraphProto.mk.sizeOf_spec nodes gin gout gvi
          omega
        have hrec := (ih (sizeOf nodes) hszn).1 vis nodes (le_refl _) none st st' h t
        rw [hrec]
        rfl

/-- C1.  Whenever `summarize_model` produces a summary, the count table maps
every operator type to exactly the number of nodes of that type in the main
graph plus all nested subgraphs reachable through `GRAPH`-typed attributes;
the `model_size` field equals the serialized byte size; and a model with
zero nodes yields an empty count mapping. -/
theorem summarize_model_counts :
    ∀ (m : ModelProto) (info : ModelInfo), summarize_model m = .ok info →
      (∀ t : String, alGet info.op_type_counts t 0 = specGraphOpCount m.graph t)
      ∧ info.model_size = m.byteSize
      ∧ (m.graph.node = [] → info.op_type_counts = []) := by
  intro m info h
  unfold summarize_model at h
  cases hg : get_graph_node_info m.graph.value_info m.graph ⟨[], []⟩ with
  | error e => rw [hg] at h; exact absurd h (by simp)
  | ok st =>
    rw [hg] at h
    dsimp only at h
    injection h with h2
    subst h2
    refine ⟨?_, rfl, ?_⟩
    · intro t
      have hinv := (counts_invariant (sizeOf m.graph)).2.2 m.graph.value_info m.graph
        (le_refl _) ⟨[], []⟩ st hg t
      dsimp only at hinv ⊢
      rw [hinv]
      simp [alGet]
    · intro hn
      cases hgr : m.graph with
      | mk nodes gin gout gvi =>
        rw [hgr] at hn hg
        dsimp only [GraphProto.node] at hn
        subst hn
        unfold get_graph_node_info nodeLoop at hg
        injection hg with h3
        dsimp only
        rw [← h3]

/-- Witness for C1 on a model with two `Add` nodes (one at top level, one in
a nested subgraph behind a `GRAPH` attribute) and a `Mul` node, plus a
zero-node model. -/
theorem summarize_model_counts_witness :
    alGet [("Add", 2), ("Mul", 1)] "Add" 0 =
      specGraphOpCount
        (GraphProto.mk
          [NodeProto.mk "n1" "Add" ["o1"] [],
           NodeProto.mk "n2" "Mul" ["o2"]
             [AttributeProto.mk 5 (GraphProto.mk [NodeProto.mk "s1" "Add" ["so"] []] [] [] [])]]
          [] [] []) "Add"
    ∧ alGet [("Add", 2), ("Mul", 1)] "Mul" 0 =
        specGraphOpCount
          (GraphProto.mk
            [NodeProto.mk "n1" "Add" ["o1"] [],
             NodeProto.mk "n2" "Mul" ["o2"]
               [AttributeProto.mk 5 (GraphProto.mk [NodeProto.mk "s1" "Add" ["so"] []] [] [] [])]]
            [] [] []) "Mul"
    ∧ ({ model_size := 7, op_set := "None", op_info := [], op_type_counts := [],
         op_input_info := [], op_output_info := [] } : ModelInfo).op_type_counts = [] := by
  have h1 := summarize_model_counts
    ⟨GraphProto.mk
        [NodeProto.mk "n1" "Add" ["o1"] [],
         NodeProto.mk "n2" "Mul" ["o2"]
           [AttributeProto.mk 5 (GraphProto.mk [NodeProto.mk "s1" "Add" ["so"] []] [] [] [])]]
        [] [] [], 42, .ok [], none⟩
    { model_size := 42, op_set := "None",
      op_info := [("n1", ("Add", [])), ("n2", ("Mul", [])), ("s1", ("Add", []))],
      op_type_counts := [("Add", 2), ("Mul", 1)],
      op_input_info := [], op_output_info := [] }
    (by decide)
  have h2 := summarize_model_counts ⟨GraphProto.mk [] [] [] [], 7, .ok [], none⟩
    { model_size := 7, op_set := "None", op_info := [], op_type_counts := [],
      op_input_info := [], op_output_info := [] }
    (by decide)
  exact ⟨h1.1 "Add", h1.1 "Mul", h2.2.2 rfl⟩

/-! ## Claim C8 — per-node output type/shape collection -/

/-- C8 (failing input).  At a node with two outputs both recorded in the
value-info table, `op_info` keeps only the entry of the last output — the
`shapes` accumulator is re-initialized inside the per-output loop — instead
of the entries of all recorded outputs that the claim (and the CSV exporter,
which iterates the whole list) expects. -/
theorem op_info_last_output_only :
    summarize_model
      ⟨GraphProto.mk [NodeProto.mk "n" "Split" ["o1", "o2"] []] [] []
         [⟨"o1", ⟨1, some [Dim.value 2]⟩⟩, ⟨"o2", ⟨7, some [Dim.value 3]⟩⟩],
       5, .ok [], none⟩ =
      .ok { model_size := 5, op_set := "None",
            op_info := [("n", ("Split", [("int64", some [Dim.value 3])]))],
            op_type_counts := [("Split", 1)],
            op_input_info := [], op_output_info := [] }
    ∧ ([("int64", (some [Dim.value 3] : Option (List Dim)))] ≠
        [("float32", some [Dim.value 2]), ("int64", some [Dim.value 3])]) := by
  constructor
  · decide
  · decide

/-! ## Claim C10 — zero-output nodes -/

theorem outputLoop_ne_none (vis : List ValueInfoProto) :
    ∀ (outs : List String) (shapes : Option (List ShapeEntry)), outs ≠ [] →
      ∃ sh, outputLoop vis outs shapes = some sh := by
  intro outs
  induction outs with
  | nil => intro shapes h; exact absurd rfl h
  | cons o os ih =>
    intro shapes _
    have hstep : outputLoop vis (o :: os) shapes
        = outputLoop vis os (match viLookup vis o with
                             | some vi => some [get_tensor_dtype_shape vi.ttype]
                             | none => some []) := rfl
    cases os with
    | nil =>
      rw [hstep]
      cases viLookup vis o
      · exact ⟨[], rfl⟩
      · exact ⟨_, rfl⟩
    | cons o2 os2 =>
      rw [hstep]
      exact ih _ (by simp)

/-- C10.  The summarizer is not total on zero-output nodes: a graph (or a
subgraph, since every `get_graph_node_info` call starts with its own unbound
`shapes` local) whose first node has no outputs makes `summarize_model`
raise the unbound-local error; and a zero-output node visited after a node
with outputs receives, as its `op_info` entry, the output type/shape list
left over from the previously visited node — the same list stored for that
previous node — rather than an empty list of its own. -/
theorem summarize_zero_output_spec :
    (∀ (m : ModelProto) (nm t : String) (attrs : List AttributeProto) (rest : List NodeProto)
       (gin gout gvi : List ValueInfoProto),
       m.graph = GraphProto.mk (NodeProto.mk nm t [] attrs :: rest) gin gout gvi →
       summarize_model m = .error "UnboundLocalError: local variable referenced before assignment")
    ∧ (∀ (vis : List ValueInfoProto) (nm t : String) (attrs : List AttributeProto)
        (rest : List NodeProto) (gin gout gvi : List ValueInfoProto) (st : SState),
        get_graph_node_info vis (GraphProto.mk (NodeProto.mk nm t [] attrs :: rest) gin gout gvi)
          st = .error "UnboundLocalError: local variable referenced before assignment")
    ∧ (∀ (vis : List ValueInfoProto) (nm1 t1 o : String) (os : List String) (nm2 t2 : String)
        (st st' : SState), nm1 ≠ nm2 →
        nodeLoop vis [NodeProto.mk nm1 t1 (o :: os) [], NodeProto.mk nm2 t2 [] []] none st
          = .ok st' →
        ∃ sh, outputLoop vis (o :: os) none = some sh
          ∧ alFind st'.opInfo nm2 = some (t2, sh)
          ∧ alFind st'.opInfo nm1 = some (t1, sh)) := by
  refine ⟨?_, ?_, ?_⟩
  · intro m nm t attrs rest gin gout gvi hgr
    unfold summarize_model
    rw [hgr]
    rfl
  · intro vis nm t attrs rest gin gout gvi st
    rfl
  · intro vis nm1 t1 o os nm2 t2 st st' hne h
    obtain ⟨sh, hsh⟩ := outputLoop_ne_none vis (o :: os) none (by simp)
    have hcomp : nodeLoop vis [NodeProto.mk nm1 t1 (o :: os) [], NodeProto.mk nm2 t2 [] []]
        none st
        = .ok ⟨alIncr (alIncr st.counts t1) t2,
               alSet (alSet st.opInfo nm1 (t1, sh)) nm2 (t2, sh)⟩ := by
      unfold nodeLoop
      dsimp only
      rw [hsh]
      rfl
    rw [hcomp] at h
    injection h with h2
    subst h2
    refine ⟨sh, hsh, ?_, ?_⟩
    · exact alFind_alSet_self _ nm2 (t2, sh)
    · rw [alFind_alSet_other _ nm2 nm1 _ (Ne.symm hne)]
      exact alFind_alSet_self _ nm1 (t1, sh)

/-- Witness for C10: a model whose only node has no outputs fails with the
unbound-local error; and after a node `a` whose output `o` is recorded in
value-info, a zero-output node `b` is assigned the non-empty leftover list
of `a`. -/
theorem summarize_zero_output_witness :
    summarize_model
      ⟨GraphProto.mk [NodeProto.mk "z" "NoOut" [] []] [] [] [], 3, .ok [], none⟩ =
      .error "UnboundLocalError: local variable referenced before assignment"
    ∧ (∃ sh, outputLoop [⟨"o", ⟨1, some [Dim.value 4]⟩⟩] ["o"] none = some sh
        ∧ alFind (SState.mk [("A", 1), ("B", 1)]
              [("a", ("A", [("float32", some [Dim.value 4])])),
               ("b", ("B", [("float32", some [Dim.value 4])]))]).opInfo "b" = some ("B", sh)
        ∧ alFind (SState.mk [("A", 1), ("B", 1)]
              [("a", ("A", [("float32", some [Dim.value 4])])),
               ("b", ("B", [("float32", some [Dim.value 4])]))]).opInfo "a" = some ("A", sh)) := by
  constructor
  · exact summarize_zero_output_spec.1
      ⟨GraphProto.mk [NodeProto.mk "z" "NoOut" [] []] [] [] [], 3, .ok [], none⟩
      "z" "NoOut" [] [] [] [] [] rfl
  · exact summarize_zero_output_spec.2.2 [⟨"o", ⟨1, some [Dim.value 4]⟩⟩] "a" "A" "o" [] "b" "B"
      ⟨[], []⟩ _ (by decide) (by decide)

/-! ## Claim C3 — random input synthesis -/

theorem sanitizeDim_getD (d : Dim) :
    (sanitizeDim d).getD 1 =
      (match d with
       | .value v => if v ≠ -1 then v else 1
       | _ => 1) := by
  cases d with
  | param s => rfl
  | value v =>
    show (if v ≠ -1 then some v else some 1).getD 1 = if v ≠ -1 then v else 1
    split
    · rfl
    · rfl
  | unknown => rfl

theorem sanitizeDim_isSome (d : Dim) (hd : d ≠ .unknown) : (sanitizeDim d).isSome = true := by
  cases d with
  | param s => rfl
  | value v =>
    show (if v ≠ -1 then some v else some 1).isSome = true
    split
    · rfl
    · rfl
  | unknown => exact absurd rfl hd

/-- Counterexample to C3 as stated: a declared input whose single dimension
is unknown (neither `dim_param` nor `dim_value` set) is not replaced by 1 —
the sanitize comprehension only replaces strings and `-1` — so the surviving
`None` makes data generation raise a `TypeError` instead of producing an
array of shape `(1,)`. -/
theorem gen_input_counterexample :
    gen_onnxruntime_input_data
      ⟨GraphProto.mk [] [⟨"x", ⟨1, some [Dim.unknown]⟩⟩] [] [], 4, .ok [], none⟩ [] =
      .error "TypeError: NoneType object cannot be interpreted as an integer"
    ∧ (gen_onnxruntime_input_data
        ⟨GraphProto.mk [] [⟨"x", ⟨1, some [Dim.unknown]⟩⟩] [] [], 4, .ok [], none⟩ []).isOk
        = false := by
  constructor
  · decide
  · decide

/-- C3 (amended).  For a declared input with no data override the
synthesizer replaces every symbolic dimension and every dimension equal to
`-1` with 1, but leaves an unknown dimension in place, so that generation
fails with a `TypeError`; when no dimension is unknown, an empty shape
becomes `[1]`, and the data drawn is uniform random integers in `[0, 10)`
for the int32/int64 dtypes and uniform random floats in `[0, 1)` for every
other dtype, cast to the declared dtype; in particular a declared float
input of shape `[-1, 3]` yields a float array of shape `(1, 3)` with values
in `[0, 1)`. -/
theorem gen_input_spec :
    (∀ (sh : List Dim) (dt : NpDtype), (∀ d ∈ sh, d ≠ Dim.unknown) →
      genForShape sh dt =
        .ok (.random
          (if sh.isEmpty then [1]
           else sh.map (fun d => match d with
             | .value v => if v ≠ -1 then v else 1
             | _ => 1))
          (if dt = .int32 ∨ dt = .int64 then .randint 10 else .randfloat) dt))
    ∧ (∀ (sh : List Dim) (dt : NpDtype), Dim.unknown ∈ sh →
        genForShape sh dt =
          .error "TypeError: NoneType object cannot be interpreted as an integer")
    ∧ (∀ (nm : String) (et : Nat) (sh : Option (List Dim)) (dt : NpDtype) (bs : Nat)
        (gout gvi : List ValueInfoProto) (oi : Except String (List OpsetImport))
        (ce : Option CheckExc),
        onnx_dtype_to_numpy et = .ok dt →
        gen_onnxruntime_input_data ⟨GraphProto.mk [] [⟨nm, ⟨et, sh⟩⟩] gout gvi, bs, oi, ce⟩ [] =
          (genForShape (sh.getD []) dt).map (fun g => [(nm, g)]))
    ∧ gen_onnxruntime_input_data
        ⟨GraphProto.mk [] [⟨"x", ⟨1, some [Dim.value (-1), Dim.value 3]⟩⟩] [] [], 4,
         .ok [], none⟩ [] =
        .ok [("x", .random [1, 3] .randfloat .float32)] := by
  refine ⟨?_, ?_, ?_, by decide⟩
  · intro sh dt hnone
    unfold genForShape
    cases sh with
    | nil => cases dt <;> rfl
    | cons d ds =>
      dsimp only
      have hemp : ((d :: ds).map sanitizeDim).isEmpty = false := rfl
      rw [hemp]
      simp only [Bool.false_eq_true, if_false]
      have hall : ((d :: ds).map sanitizeDim).all (fun o => o.isSome) = true := by
        rw [List.all_eq_true]
        intro o ho
        rw [List.mem_map] at ho
        obtain ⟨d2, hd2, rfl⟩ := ho
        exact sanitizeDim_isSome d2 (hnone d2 hd2)
      rw [if_pos hall]
      have hdims : ((d :: ds).map sanitizeDim).map (fun o => o.getD 1)
          = (d :: ds).map (fun d => match d with
              | .value v => if v ≠ -1 then v else 1
              | _ => 1) := by
        rw [List.map_map]
        apply List.map_congr_left
        intro d2 _
        exact sanitizeDim_getD d2
      rw [hdims]
      have hres : (if (d :: ds).isEmpty then [1]
          else (d :: ds).map (fun d => match d with
            | .value v => if v ≠ -1 then v else 1
            | _ => 1))
          = (d :: ds).map (fun d => match d with
            | .value v => if v ≠ -1 then v else 1
            | _ => 1) := rfl
      rw [hres]
      by_cases hdt : dt = .int32 ∨ dt = .int64
      · rw [if_pos hdt, if_pos hdt]
      · rw [if_neg hdt, if_neg hdt]
  · intro sh dt hmem
    unfold genForShape
    cases sh with
    | nil => simp at hmem
    | cons d ds =>
      dsimp only
      have hemp : ((d :: ds).map sanitizeDim).isEmpty = false := rfl
      rw [hemp]
      simp only [Bool.false_eq_true, if_false]
      have hall : ¬ ((d :: ds).map sanitizeDim).all (fun o => o.isSome) = true := by
        intro hcontra
        have hnone : (none : Option Int) ∈ (d :: ds).map sanitizeDim :=
          List.mem_map.mpr ⟨Dim.unknown, hmem, rfl⟩
        have := List.all_eq_true.mp hcontra none hnone
        simp at this
      rw [if_neg hall]
  · intro nm et sh dt bs gout gvi oi ce het
    have hbuild : buildInputInfo [⟨nm, ⟨et, sh⟩⟩]
        = .ok [(nm, ⟨none, some (sh.getD []), some dt⟩)] := by
      unfold buildInputInfo
      simp only [List.foldl_cons, List.foldl_nil]
      rw [het]
      rfl
    unfold gen_onnxruntime_input_data
    dsimp only [GraphProto.input]
    rw [hbuild]
    have hrest : (match Except.ok [(nm, (⟨none, some (sh.getD []), some dt⟩ : PyInputInfo))] with
        | Except.error e => Except.error e
        | Except.ok info0 =>
          match applyOverrides info0 [] with
          | Except.error e => Except.error e
          | Except.ok info => buildInputData info)
        = buildInputData [(nm, ⟨none, some (sh.getD []), some dt⟩)] := rfl
    rw [hrest]
    unfold buildInputData
    simp only [List.foldr_cons, List.foldr_nil]
    cases hg : genForShape (sh.getD []) dt with
    | error e => rfl
    | ok g => rfl

/-- Witness for the amended C3: symbolic and `-1` dimensions become 1 for an
int64 input (uniform integers in `[0, 10)`), an unknown dimension raises
the `TypeError`, and the single-float-input pipeline reduces to
`genForShape`. -/
theorem gen_input_spec_witness :
    genForShape [Dim.param "batch", Dim.value (-1), Dim.value 5] .int64 =
      .ok (.random [1, 1, 5] (.randint 10) .int64)
    ∧ genForShape [Dim.value 2, Dim.unknown] .float32 =
        .error "TypeError: NoneType object cannot be interpreted as an integer"
    ∧ gen_onnxruntime_input_data
        ⟨GraphProto.mk [] [⟨"y", ⟨6, some []⟩⟩] [] [], 4, .ok [], none⟩ [] =
        (genForShape [] .int32).map (fun g => [("y", g)]) := by
  refine ⟨?_, ?_, ?_⟩
  · have h := gen_input_spec.1 [Dim.param "batch", Dim.value (-1), Dim.value 5] .int64
      (by decide)
    rw [h]
    decide
  · exact gen_input_spec.2.1 [Dim.value 2, Dim.unknown] .float32 (by decide)
  · exact gen_input_spec.2.2.1 "y" 6 (some []) .int32 4 [] [] (.ok []) none (by decide)

end OnnxSlim
